import Mathlib

/-!
Verification of the `reddit_miner` two-stage pipeline (`src/reddit_miner/pipeline.py`)
against its natural-language specification.

The annotation stage (`analyze`) is embedded as an executable interpreter driven by a
trace of external classifier-call events; wall-clock time is modelled by `ℚ`, the
database connection by an explicit committed/current pair of states, and every sleep,
attempt, commit and validity-cleanup is recorded in a log so that temporal claims can
be stated about whole runs.  The storage layer (`db.py`) and the ticker heuristics
(`ticker.py`) are not part of the sources; their operations are modelled from the
spec's Item Store / prefilter / validity-oracle boundary contracts.
-/

namespace RedditMiner

/-! ### Character/string helpers

Executable stand-ins for the Python string primitives used by `pipeline.py`
(`str.lower`, `str.strip`, the `in` substring test), written over `List Char`
so that concrete instances reduce in the kernel. -/

/-- ASCII lower-casing of one character (model of Python `str.lower` per char;
all substrings searched by the pipeline are ASCII). -/
def lowerChar (c : Char) : Char :=
  if 'A' ≤ c && c ≤ 'Z' then Char.ofNat (c.toNat + 32) else c

/-- Model of Python `str.lower()`. -/
def lowerStr (s : String) : String := ⟨s.data.map lowerChar⟩

/-- `matchHead pat l` holds when `pat` is an initial segment of `l`. -/
def matchHead : List Char → List Char → Bool
  | [], _ => true
  | _ :: _, [] => false
  | a :: as, b :: bs => a == b && matchHead as bs

/-- `subIn hay pat`: `pat` occurs as a contiguous run inside `hay`. -/
def subIn : List Char → List Char → Bool
  | hay, pat =>
    if matchHead pat hay then true
    else
      match hay with
      | [] => false
      | _ :: t => subIn t pat

/-- Model of Python `pat in hay` on strings. -/
def containsStr (hay pat : String) : Bool := subIn hay.data pat.data

/-- Drop leading whitespace characters. -/
def dropWs : List Char → List Char
  | [] => []
  | c :: t => if c.isWhitespace then dropWs t else c :: t

/-- Model of Python `str.strip()` (trim whitespace at both ends). -/
def pyStrip (s : String) : String := ⟨(dropWs (dropWs s.data.reverse).reverse)⟩

/-! ### Failure taxonomy of the inference API

`pipeline.py` discriminates on the exception class raised by the OpenAI client
(`openai.RateLimitError`, `openai.APITimeoutError`, `openai.APIConnectionError`,
`openai.InternalServerError`, `openai.AuthenticationError`,
`openai.PermissionDeniedError`, anything else) and on `str(err)`. -/

/-- One raised exception from the inference API: its class and its `str(...)` text.
`otherError` carries the class name of any exception outside the taxonomy. -/
inductive ApiError
  | rateLimitError (msg : String)
  | apiTimeoutError (msg : String)
  | apiConnectionError (msg : String)
  | internalServerError (msg : String)
  | authenticationError (msg : String)
  | permissionDeniedError (msg : String)
  | otherError (name msg : String)
deriving DecidableEq, Repr

/-- Python `str(err)`. -/
def ApiError.msg : ApiError → String
  | .rateLimitError m => m
  | .apiTimeoutError m => m
  | .apiConnectionError m => m
  | .internalServerError m => m
  | .authenticationError m => m
  | .permissionDeniedError m => m
  | .otherError _ m => m

/-- Python `type(err).__name__`. -/
def ApiError.typeName : ApiError → String
  | .rateLimitError _ => "RateLimitError"
  | .apiTimeoutError _ => "APITimeoutError"
  | .apiConnectionError _ => "APIConnectionError"
  | .internalServerError _ => "InternalServerError"
  | .authenticationError _ => "AuthenticationError"
  | .permissionDeniedError _ => "PermissionDeniedError"
  | .otherError n _ => n

/-- `isinstance(e, openai.RateLimitError)`. -/
def isRateLimit : ApiError → Bool
  | .rateLimitError _ => true
  | _ => false

/-- `pipeline._is_quota_exhausted`: substring tests on the lower-cased error text. -/
def is_quota_exhausted (e : ApiError) : Bool :=
  let msg := lowerStr e.msg
  containsStr msg "insufficient_quota" ||
    (containsStr msg "quota" && (containsStr msg "exceed" || containsStr msg "exceeded"))

/-- `pipeline._is_retryable`: rate-limit, timeout, connection and server errors. -/
def is_retryable : ApiError → Bool
  | .rateLimitError _ => true
  | .apiTimeoutError _ => true
  | .apiConnectionError _ => true
  | .internalServerError _ => true
  | _ => false

/-- `pipeline._is_fatal_auth`: authentication and permission errors. -/
def is_fatal_auth : ApiError → Bool
  | .authenticationError _ => true
  | .permissionDeniedError _ => true
  | _ => false

/-- `pipeline._backoff_seconds`: `min(1.0 * (2 ** attempt), 20.0)`. -/
def backoff_seconds (attempt : ℕ) : ℚ := min (1 * (2 : ℚ) ^ attempt) 20

/-- `pipeline._sleep_with_deadline`, embedded as the amount of time actually slept:
zero when `seconds <= 0` or the deadline has passed, else the requested amount
clamped to the time remaining before the deadline. -/
def sleep_with_deadline (seconds : ℚ) (deadline : Option ℚ) (now : ℚ) : ℚ :=
  if seconds ≤ 0 then 0
  else
    match deadline with
    | none => seconds
    | some d => if d - now ≤ 0 then 0 else min seconds (d - now)

/-- The slice `comments[:max_comments_per_post] if max_comments_per_post else comments`
taken per submission by `pipeline.scrape` (line 172). -/
def takeItems {α : Type} (comments : List α) (max_comments_per_post : ℕ) : List α :=
  if max_comments_per_post ≠ 0 then comments.take max_comments_per_post else comments

/-! ### Item Store model

`db.py` is not among the sources; the operations below are modelled from the
spec's Item Store boundary (§3 data model and §6 "Item Store boundary"). -/

/-- Sentiment label of one extracted mention. -/
inductive Sentiment
  | bullish
  | bearish
  | neutral
deriving DecidableEq, Repr

/-- Outcome status of one (item, tag) pair: accepted, or failed with stored detail. -/
inductive OutcomeStatus
  | ok
  | error (msg : String)
deriving DecidableEq, Repr

/-- One Outcome row, keyed by (analysis tag, comment id). -/
structure OutcomeRow where
  tag : String
  commentId : String
  model : String
  status : OutcomeStatus
deriving DecidableEq, Repr

/-- One Mention row: a (ticker, sentiment) extraction owned by an `ok` Outcome. -/
structure MentionRow where
  tag : String
  commentId : String
  symbol : String
  sentiment : Sentiment
  model : String
deriving DecidableEq, Repr

/-- The visible contents of the store: collected items (id, body), outcome rows and
mention rows. -/
structure DBState where
  items : List (String × String)
  outcomes : List OutcomeRow
  mentions : List MentionRow
deriving DecidableEq, Repr

/-- A live connection: the last committed snapshot and the current (possibly
uncommitted) state.  `commit` publishes `current`; losing the connection loses
everything after the last commit. -/
structure Conn where
  committed : DBState
  current : DBState
deriving DecidableEq, Repr

/-- `conn.commit()`. -/
def Conn.commit (c : Conn) : Conn := { c with committed := c.current }

/-- The outcome row currently stored for (tag, comment id), if any. -/
def outcomeFor (d : DBState) (tag commentId : String) : Option OutcomeRow :=
  d.outcomes.find? fun r => r.tag == tag && r.commentId == commentId

/-- The mention rows currently stored for (tag, comment id). -/
def mentionsFor (d : DBState) (tag commentId : String) : List MentionRow :=
  d.mentions.filter fun m => m.tag == tag && m.commentId == commentId

/-- Modelled from the spec: the Outcome-row upsert underlying `db.mark_analyzed_ok`
and `db.mark_analyzed_error` (missing `db.py`); §3: "at most one Outcome row per
(item, tag); re-processing an item under the same tag overwrites, never duplicates". -/
def upsertOutcome (rows : List OutcomeRow) (r : OutcomeRow) : List OutcomeRow :=
  (rows.filter fun x => !(x.tag == r.tag && x.commentId == r.commentId)) ++ [r]

/-- Modelled from the spec: `db.mark_analyzed_ok` (missing `db.py`) — record
Outcome = `ok` for (tag, comment id) in the current transaction. -/
def mark_analyzed_ok (c : Conn) (tag commentId model : String) : Conn :=
  { c with current :=
      { c.current with outcomes :=
          upsertOutcome c.current.outcomes ⟨tag, commentId, model, .ok⟩ } }

/-- Modelled from the spec: `db.mark_analyzed_error` (missing `db.py`) — record
Outcome = `error` with the error text for (tag, comment id). -/
def mark_analyzed_error (c : Conn) (tag commentId model err : String) : Conn :=
  { c with current :=
      { c.current with outcomes :=
          upsertOutcome c.current.outcomes ⟨tag, commentId, model, .error err⟩ } }

/-- Modelled from the spec: `db.save_mentions` (missing `db.py`) — replace the
mention rows of (tag, comment id) by the freshly returned (ticker, sentiment) pairs. -/
def save_mentions (c : Conn) (tag commentId model : String)
    (rows : List (String × Sentiment)) : Conn :=
  { c with current :=
      { c.current with mentions :=
          (c.current.mentions.filter fun m => !(m.tag == tag && m.commentId == commentId))
            ++ rows.map fun (sym, sent) => ⟨tag, commentId, sym, sent, model⟩ } }

/-- Modelled from the spec: the candidate predicate of `db.fetch_candidates`
(missing `db.py`) — an item lacking an `ok` Outcome for the tag and, unless
`retry_errors`, lacking an `error` Outcome too. -/
def isCandidate (c : Conn) (tag : String) (retry_errors : Bool) (commentId : String) : Bool :=
  match outcomeFor c.current tag commentId with
  | none => true
  | some r =>
    match r.status with
    | .ok => false
    | .error _ => retry_errors

/-- Modelled from the spec: `db.fetch_candidates` (missing `db.py`) — up to `limit`
(id, body) pairs of items not yet decided under the tag. -/
def fetch_candidates (c : Conn) (tag : String) (limit : ℕ) (retry_errors : Bool) :
    List (String × String) :=
  ((c.current.items.filter fun it => isCandidate c tag retry_errors it.1).take limit)

/-- Modelled from the spec: `db.fetch_distinct_mentioned_tickers` (missing `db.py`)
— the distinct ticker symbols with at least one Mention under the tag. -/
def fetch_distinct_mentioned_tickers (c : Conn) (tag : String) : List String :=
  ((c.current.mentions.filter fun m => m.tag == tag).map fun m => m.symbol).dedup

/-- Modelled from the spec: `db.delete_mentions_for_tickers` (missing `db.py`) —
delete every Mention row of the tag whose symbol is listed; returns the count deleted. -/
def delete_mentions_for_tickers (c : Conn) (tag : String) (symbols : List String) :
    Conn × ℕ :=
  let doomed := c.current.mentions.filter fun m => m.tag == tag && symbols.contains m.symbol
  ({ c with current :=
      { c.current with mentions :=
          c.current.mentions.filter fun m => !(m.tag == tag && symbols.contains m.symbol) } },
   doomed.length)

/-! ### External configuration

`ticker.py` (feature flags, prefilter, validity oracle) is not among the sources;
its interface is modelled from the spec's prefilter / validity-oracle boundary. -/

/-- Modelled from the spec: the process-wide toggles and heuristics of the missing
`ticker.py` (`ENABLE_KEYWORD_SHORTCUT`, `has_finance_hint`,
`ENABLE_YFINANCE_VALIDATION`, `find_invalid_tickers`). -/
structure Env where
  enableKeywordShortcut : Bool
  hasFinanceHint : String → Bool
  enableYfinanceValidation : Bool
  findInvalidTickers : List String → List String

/-- `pipeline._cleanup_invalid_tickers`: delete mentions of invalid tickers for the
tag, committing when something was deleted; a no-op when validation is disabled or
no mentions exist or every ticker is valid.  Returns the updated connection and the
number of mention rows deleted. -/
def cleanup_invalid_tickers (env : Env) (c : Conn) (analysis_tag : String) : Conn × ℕ :=
  if !env.enableYfinanceValidation then (c, 0)
  else
    let tickers := fetch_distinct_mentioned_tickers c analysis_tag
    if tickers.isEmpty then (c, 0)
    else
      let invalid := env.findInvalidTickers tickers
      if invalid.isEmpty then (c, 0)
      else
        let (c, deleted) := delete_mentions_for_tickers c analysis_tag invalid
        (c.commit, deleted)

/-! ### The annotation run (`pipeline.analyze`)

The run is an interpreter over a trace of classifier-call events.  Each event is one
execution of the `try:` body at line 303: the paced call either succeeds with rows,
raises a `KeyboardInterrupt`, or raises an API error; `dur` is the wall-clock time the
call itself consumed.  Time is `ℚ`, advanced by sleeps and call durations.  Every
sleep, attempt, backoff request, commit and validity-cleanup is appended to a log. -/

/-- The outcome record returned by `analyze` (`pipeline.AnalyzeOutcome`). -/
structure AnalyzeOutcome where
  analyzed : ℕ
  errors : ℕ
  analyzed_model_calls : ℕ
  stopped_reason : Option String
deriving DecidableEq, Repr

/-- The keyword arguments of `pipeline.analyze` (the connection and the trace are
passed separately). -/
structure AnalyzeCfg where
  analysis_tag : String
  model : String
  limit : ℕ
  retry_errors : Bool
  max_requests_per_minute : ℕ
  timeout_seconds : Option ℕ
deriving DecidableEq, Repr

/-- One observable action of the run, recorded in order. -/
inductive LogEntry
  | sleepEv (start amount : ℚ)
  | attemptEv (start : ℚ) (commentId : String) (attempt : ℕ)
  | backoffEv (commentId : String) (attempt : ℕ) (wait : ℚ)
  | commitEv
  | cleanupEv
deriving DecidableEq, Repr

/-- The result of one classifier-call attempt, supplied by the environment. -/
inductive CallEvent
  | success (dur : ℚ) (rows : List (String × Sentiment))
  | kbInt (dur : ℚ)
  | failure (dur : ℚ) (e : ApiError)
deriving DecidableEq, Repr

/-- The mutable state of a run: connection, clock, pacing bookmark, counters, log. -/
structure RunState where
  conn : Conn
  now : ℚ
  nextCallAt : ℚ
  out : AnalyzeOutcome
  log : List LogEntry
deriving DecidableEq, Repr

/-- `deadline = _now() + timeout_seconds if timeout_seconds else None` (line 241):
a zero or absent `timeout_seconds` means no deadline. -/
def analyzeDeadline (cfg : AnalyzeCfg) (startNow : ℚ) : Option ℚ :=
  match cfg.timeout_seconds with
  | some ts => if ts ≠ 0 then some (startNow + (ts : ℚ)) else none
  | none => none

/-- `interval = 60.0 / max_requests_per_minute` when positive, else `0` (line 259). -/
def analyzeInterval (cfg : AnalyzeCfg) : ℚ :=
  if cfg.max_requests_per_minute > 0 then 60 / (cfg.max_requests_per_minute : ℚ) else 0

/-- The guard `deadline is not None and _now() >= deadline` (lines 273 and 296). -/
def deadlineElapsed (deadline : Option ℚ) (now : ℚ) : Bool :=
  match deadline with
  | none => false
  | some d => d ≤ now

/-- Perform `_sleep_with_deadline` from state `s`: advance the clock by the slept
amount and record the sleep (no entry when nothing was slept). -/
def doSleepWD (deadline : Option ℚ) (seconds : ℚ) (s : RunState) : RunState :=
  let amt := sleep_with_deadline seconds deadline s.now
  if amt = 0 then s
  else { s with now := s.now + amt, log := s.log ++ [LogEntry.sleepEv s.now amt] }

/-- `conn.commit()` performed by the run. -/
def doCommit (s : RunState) : RunState :=
  { s with conn := s.conn.commit, log := s.log ++ [LogEntry.commitEv] }

/-- `_cleanup_invalid_tickers(conn, analysis_tag=...)` performed by the run. -/
def doCleanup (env : Env) (cfg : AnalyzeCfg) (s : RunState) : RunState :=
  let (c, _) := cleanup_invalid_tickers env s.conn cfg.analysis_tag
  { s with conn := c, log := s.log ++ [LogEntry.cleanupEv] }

/-- Set `outcome.stopped_reason`. -/
def setReason (r : String) (s : RunState) : RunState :=
  { s with out := { s.out with stopped_reason := some r } }

/-- The local `_pace()` closure (lines 262-269): sleep until `next_call_at` when
pacing is enabled, then move the bookmark `interval` past the current time. -/
def pace (cfg : AnalyzeCfg) (deadline : Option ℚ) (s : RunState) : RunState :=
  let interval := analyzeInterval cfg
  if interval ≤ 0 then s
  else
    let s := if s.now < s.nextCallAt then doSleepWD deadline (s.nextCallAt - s.now) s else s
    { s with nextCallAt := s.now + interval }

/-- The timeout stop path (lines 273-278 / 296-301): set reason `"timeout"`,
commit, run the validity post-pass. -/
def timeoutExit (env : Env) (cfg : AnalyzeCfg) (s : RunState) : RunState :=
  doCleanup env cfg (doCommit (setReason "timeout" s))

/-- The `KeyboardInterrupt` handlers (lines 322-327 and 372-376): commit, set
reason `"ctrl_c"`, run the validity post-pass. -/
def ctrlCExit (env : Env) (cfg : AnalyzeCfg) (s : RunState) : RunState :=
  doCleanup env cfg (setReason "ctrl_c" (doCommit s))

/-- What one iteration of the `while True:` attempt loop decided. -/
inductive StepOut
  | retry (attempt : ℕ) (s : RunState)
  | advance (s : RunState)
  | halt (s : RunState)
  | thrown (e : ApiError) (s : RunState)
deriving DecidableEq, Repr

/-- The prologue of one attempt (lines 304-305): pace, then begin the classifier
call, recording its start time. -/
def callBegin (cfg : AnalyzeCfg) (deadline : Option ℚ)
    (commentId : String) (attempt : ℕ) (s : RunState) : RunState :=
  let s := pace cfg deadline s
  { s with log := s.log ++ [LogEntry.attemptEv s.now commentId attempt] }

/-- Advance the clock by the duration the external call consumed. -/
def elapse (dur : ℚ) (s : RunState) : RunState := { s with now := s.now + dur }

/-- The success branch (lines 305-320): count the model call, persist the returned
mentions together with Outcome = `ok`, count the item, commit on every 10th
analyzed item. -/
def successStep (cfg : AnalyzeCfg) (commentId : String)
    (rows : List (String × Sentiment)) (s : RunState) : RunState :=
  let s := { s with out := { s.out with
               analyzed_model_calls := s.out.analyzed_model_calls + 1 } }
  let s := { s with conn := save_mentions s.conn cfg.analysis_tag commentId cfg.model rows }
  let s := { s with conn := mark_analyzed_ok s.conn cfg.analysis_tag commentId cfg.model }
  let s := { s with out := { s.out with analyzed := s.out.analyzed + 1 } }
  if s.out.analyzed % 10 == 0 then doCommit s else s

/-- The quota-exhausted branch (lines 334-347): persist Outcome = `error` with the
raw error text, commit, set reason `"quota"`, run the validity post-pass. -/
def quotaExit (env : Env) (cfg : AnalyzeCfg) (commentId : String) (e : ApiError)
    (s : RunState) : RunState :=
  let s := { s with conn := mark_analyzed_error s.conn cfg.analysis_tag commentId
                      cfg.model (e.typeName ++ ": " ++ e.msg) }
  doCleanup env cfg (setReason "quota" (doCommit s))

/-- The retryable branch (lines 349-353): request an exponential-backoff wait and
sleep it out, clamped by the deadline. -/
def retryBackoffStep (deadline : Option ℚ) (commentId : String) (attempt : ℕ)
    (s : RunState) : RunState :=
  let w := backoff_seconds attempt
  doSleepWD deadline w { s with log := s.log ++ [LogEntry.backoffEv commentId attempt w] }

/-- The non-retryable-error branch (lines 355-364): persist Outcome = `error` with
the raw error text, count the error, commit. -/
def plainErrorStep (cfg : AnalyzeCfg) (commentId : String) (e : ApiError)
    (s : RunState) : RunState :=
  let s := { s with conn := mark_analyzed_error s.conn cfg.analysis_tag commentId
                      cfg.model (e.typeName ++ ": " ++ e.msg) }
  doCommit { s with out := { s.out with errors := s.out.errors + 1 } }

/-- One iteration of the attempt loop after its deadline guard (lines 303-364):
pace, perform the classifier call (whose fate `ev` dictates), then dispatch on
success / interrupt / fatal-auth / quota / retryable / other. -/
def attemptStep (env : Env) (cfg : AnalyzeCfg) (deadline : Option ℚ)
    (commentId : String) (attempt : ℕ) (ev : CallEvent) (s : RunState) : StepOut :=
  let s := callBegin cfg deadline commentId attempt s
  match ev with
  | .success dur rows =>
    .advance (successStep cfg commentId rows (elapse dur s))
  | .kbInt dur =>
    .halt (ctrlCExit env cfg (elapse dur s))
  | .failure dur e =>
    let s := elapse dur s
    if is_fatal_auth e then
      .thrown e (doCommit s)
    else if isRateLimit e && is_quota_exhausted e then
      .halt (quotaExit env cfg commentId e s)
    else if is_retryable e then
      .retry (attempt + 1) (retryBackoffStep deadline commentId attempt s)
    else
      .advance (plainErrorStep cfg commentId e s)

/-- How the attempt loop for one candidate ended. -/
inductive InnerRes
  | advance (s : RunState) (rest : List CallEvent)
  | halt (s : RunState) (rest : List CallEvent)
  | thrown (e : ApiError) (s : RunState) (rest : List CallEvent)
  | starved (s : RunState)
deriving DecidableEq, Repr

/-- The `while True:` attempt loop (lines 295-364), driven by the event trace;
`starved` reports that the trace ran out while attempts were still wanted. -/
def attemptLoop (env : Env) (cfg : AnalyzeCfg) (deadline : Option ℚ)
    (commentId : String) : ℕ → List CallEvent → RunState → InnerRes
  | attempt, trace, s =>
    if deadlineElapsed deadline s.now then .halt (timeoutExit env cfg s) trace
    else
      match trace with
      | [] => .starved s
      | ev :: rest =>
        match attemptStep env cfg deadline commentId attempt ev s with
        | .retry a s' => attemptLoop env cfg deadline commentId a rest s'
        | .advance s' => .advance s' rest
        | .halt s' => .halt s' rest
        | .thrown e s' => .thrown e s' rest

/-- The prefilter shortcut branch (lines 286-292): record Outcome = `ok`, count the
item as analyzed, commit on every 50th analyzed item. -/
def shortcutStep (cfg : AnalyzeCfg) (commentId : String) (s : RunState) : RunState :=
  let s := { s with conn := mark_analyzed_ok s.conn cfg.analysis_tag commentId cfg.model }
  let s := { s with out := { s.out with analyzed := s.out.analyzed + 1 } }
  if s.out.analyzed % 50 == 0 then doCommit s else s

/-- How a whole `analyze` invocation ended: a returned `AnalyzeOutcome` (inside the
state), a re-raised fatal-auth error, or an exhausted event trace. -/
inductive RunResult
  | done (s : RunState)
  | thrown (e : ApiError) (s : RunState)
  | starved (s : RunState)
deriving DecidableEq, Repr

/-- The `for idx, (comment_id, body) in enumerate(candidates)` loop (lines 272-370):
deadline guard, empty-body skip, prefilter shortcut, attempt loop; after the last
candidate, commit and run the validity post-pass. -/
def candLoop (env : Env) (cfg : AnalyzeCfg) (deadline : Option ℚ) :
    List (String × String) → List CallEvent → RunState → RunResult
  | [], _, s => .done (doCleanup env cfg (doCommit s))
  | (commentId, body) :: more, trace, s =>
    if deadlineElapsed deadline s.now then .done (timeoutExit env cfg s)
    else
      let text := pyStrip body
      if text = "" then candLoop env cfg deadline more trace s
      else if env.enableKeywordShortcut && !env.hasFinanceHint text then
        candLoop env cfg deadline more trace (shortcutStep cfg commentId s)
      else
        match attemptLoop env cfg deadline commentId 0 trace s with
        | .advance s' rest => candLoop env cfg deadline more rest s'
        | .halt s' _ => .done s'
        | .thrown e s' _ => .thrown e s'
        | .starved s' => .starved s'

/-- `pipeline.analyze`: compute the deadline and pacing interval, fetch candidates,
and run the loop from a fresh outcome record and an empty log. -/
def analyze (env : Env) (cfg : AnalyzeCfg) (conn : Conn) (startNow : ℚ)
    (trace : List CallEvent) : RunResult :=
  let deadline := analyzeDeadline cfg startNow
  let candidates := fetch_candidates conn cfg.analysis_tag cfg.limit cfg.retry_errors
  candLoop env cfg deadline candidates trace
    { conn := conn, now := startNow, nextCallAt := startNow,
      out := ⟨0, 0, 0, none⟩, log := [] }

/-- The final state carried by a run result. -/
def resState : RunResult → RunState
  | .done s => s
  | .thrown _ s => s
  | .starved s => s

/-! ### Observations on the log -/

/-- Is an entry the validity post-pass? -/
def isCleanupEntry : LogEntry → Bool
  | .cleanupEv => true
  | _ => false

/-- How many times the validity post-pass ran, per the log. -/
def countCleanup (log : List LogEntry) : ℕ := (log.filter isCleanupEntry).length

/-- Deadline discipline of one log entry against deadline `d`: sleeps last at most
`max 0 (d - start)` and only start strictly before `d`; classifier-call attempts
start no later than `d`. -/
def timeOK (d : ℚ) : LogEntry → Prop
  | .sleepEv start amount => amount ≤ max 0 (d - start) ∧ start < d
  | .attemptEv start _ _ => start ≤ d
  | _ => True

/-! ### Pure facts about the timing helpers -/

theorem sleep_with_deadline_nonneg (sec : ℚ) (dl : Option ℚ) (now : ℚ) :
    0 ≤ sleep_with_deadline sec dl now := by
  unfold sleep_with_deadline
  split
  · exact le_refl 0
  · match dl with
    | none => simpa using by linarith [show ¬ sec ≤ 0 from by assumption]
    | some d =>
      simp only
      split
      · exact le_refl 0
      · exact le_min (by linarith [show ¬ sec ≤ 0 from by assumption])
          (by linarith [show ¬ d - now ≤ 0 from by assumption])

theorem sleep_with_deadline_le_max (sec : ℚ) (d now : ℚ) :
    sleep_with_deadline sec (some d) now ≤ max 0 (d - now) := by
  unfold sleep_with_deadline
  split
  · exact le_max_left 0 _
  · simp only
    split
    · exact le_max_left 0 _
    · exact le_max_of_le_right (min_le_right _ _)

theorem sleep_with_deadline_pos_facts (sec : ℚ) (d now : ℚ)
    (h : sleep_with_deadline sec (some d) now ≠ 0) :
    sleep_with_deadline sec (some d) now ≤ max 0 (d - now) ∧ now < d := by
  refine ⟨sleep_with_deadline_le_max sec d now, ?_⟩
  by_contra hnd
  push_neg at hnd
  unfold sleep_with_deadline at h
  split at h
  · exact h rfl
  · simp only at h
    split at h
    · exact h rfl
    · exact absurd (by linarith : d - now ≤ 0) (by assumption)

theorem sleep_with_deadline_le_request (sec : ℚ) (dl : Option ℚ) (now : ℚ)
    (hsec : 0 ≤ sec) : sleep_with_deadline sec dl now ≤ sec := by
  unfold sleep_with_deadline
  split
  · assumption
  · match dl with
    | none => simp
    | some d =>
      simp only
      split
      · assumption
      · exact min_le_left _ _

theorem backoff_seconds_eq (a : ℕ) : backoff_seconds a = min ((2 : ℚ) ^ a) 20 := by
  unfold backoff_seconds; rw [one_mul]

theorem backoff_seconds_mono : Monotone backoff_seconds := by
  intro a b hab
  unfold backoff_seconds
  exact min_le_min (by
    rw [one_mul, one_mul]
    exact pow_le_pow_right₀ (by norm_num) hab) (le_refl 20)

theorem backoff_seconds_le_20 (a : ℕ) : backoff_seconds a ≤ 20 :=
  min_le_right _ _

/-! ### Log bookkeeping of the step helpers -/

theorem countCleanup_snoc (l : List LogEntry) (e : LogEntry) :
    countCleanup (l ++ [e]) = countCleanup l + (if isCleanupEntry e then 1 else 0) := by
  simp only [countCleanup, List.filter_append]
  rw [List.length_append]
  congr 1
  by_cases h : isCleanupEntry e <;> simp [h]

theorem cc_doSleepWD (dl : Option ℚ) (sec : ℚ) (s : RunState) :
    countCleanup (doSleepWD dl sec s).log = countCleanup s.log := by
  simp only [doSleepWD]
  split
  · rfl
  · simp [countCleanup_snoc, isCleanupEntry]

theorem cc_pace (cfg : AnalyzeCfg) (dl : Option ℚ) (s : RunState) :
    countCleanup (pace cfg dl s).log = countCleanup s.log := by
  simp only [pace]
  split
  · rfl
  · split
    · exact cc_doSleepWD dl _ s
    · rfl

theorem cc_callBegin (cfg : AnalyzeCfg) (dl : Option ℚ) (cid : String) (a : ℕ)
    (s : RunState) : countCleanup (callBegin cfg dl cid a s).log = countCleanup s.log := by
  simp only [callBegin]
  rw [countCleanup_snoc, cc_pace]
  simp [isCleanupEntry]

theorem cc_elapse (dur : ℚ) (s : RunState) :
    countCleanup (elapse dur s).log = countCleanup s.log := rfl

theorem cc_doCommit (s : RunState) :
    countCleanup (doCommit s).log = countCleanup s.log := by
  simp only [doCommit]
  rw [countCleanup_snoc]
  simp [isCleanupEntry]

theorem cc_setReason (r : String) (s : RunState) :
    countCleanup (setReason r s).log = countCleanup s.log := rfl

theorem cc_doCleanup (env : Env) (cfg : AnalyzeCfg) (s : RunState) :
    countCleanup (doCleanup env cfg s).log = countCleanup s.log + 1 := by
  simp only [doCleanup]
  rw [countCleanup_snoc]
  simp [isCleanupEntry]

theorem cc_successStep (cfg : AnalyzeCfg) (cid : String)
    (rows : List (String × Sentiment)) (s : RunState) :
    countCleanup (successStep cfg cid rows s).log = countCleanup s.log := by
  simp only [successStep]
  split
  · exact cc_doCommit _
  · rfl

theorem cc_shortcutStep (cfg : AnalyzeCfg) (cid : String) (s : RunState) :
    countCleanup (shortcutStep cfg cid s).log = countCleanup s.log := by
  simp only [shortcutStep]
  split
  · exact cc_doCommit _
  · rfl

theorem cc_timeoutExit (env : Env) (cfg : AnalyzeCfg) (s : RunState) :
    countCleanup (timeoutExit env cfg s).log = countCleanup s.log + 1 := by
  simp only [timeoutExit]
  rw [cc_doCleanup, cc_doCommit, cc_setReason]

theorem cc_ctrlCExit (env : Env) (cfg : AnalyzeCfg) (s : RunState) :
    countCleanup (ctrlCExit env cfg s).log = countCleanup s.log + 1 := by
  simp only [ctrlCExit]
  rw [cc_doCleanup, cc_setReason, cc_doCommit]

theorem cc_quotaExit (env : Env) (cfg : AnalyzeCfg) (cid : String) (e : ApiError)
    (s : RunState) : countCleanup (quotaExit env cfg cid e s).log = countCleanup s.log + 1 := by
  simp only [quotaExit]
  rw [cc_doCleanup, cc_setReason, cc_doCommit]

theorem cc_retryBackoffStep (dl : Option ℚ) (cid : String) (a : ℕ) (s : RunState) :
    countCleanup (retryBackoffStep dl cid a s).log = countCleanup s.log := by
  simp only [retryBackoffStep]
  rw [cc_doSleepWD, countCleanup_snoc]
  simp [isCleanupEntry]

theorem cc_plainErrorStep (cfg : AnalyzeCfg) (cid : String) (e : ApiError)
    (s : RunState) : countCleanup (plainErrorStep cfg cid e s).log = countCleanup s.log := by
  simp only [plainErrorStep]
  rw [cc_doCommit]

/-! ### Evaluation equations for one attempt iteration -/

theorem attemptStep_success (env : Env) (cfg : AnalyzeCfg) (dl : Option ℚ)
    (cid : String) (att : ℕ) (dur : ℚ) (rows : List (String × Sentiment)) (s : RunState) :
    attemptStep env cfg dl cid att (.success dur rows) s =
      .advance (successStep cfg cid rows (elapse dur (callBegin cfg dl cid att s))) := rfl

theorem attemptStep_kbInt (env : Env) (cfg : AnalyzeCfg) (dl : Option ℚ)
    (cid : String) (att : ℕ) (dur : ℚ) (s : RunState) :
    attemptStep env cfg dl cid att (.kbInt dur) s =
      .halt (ctrlCExit env cfg (elapse dur (callBegin cfg dl cid att s))) := rfl

theorem attemptStep_failure_auth (env : Env) (cfg : AnalyzeCfg) (dl : Option ℚ)
    (cid : String) (att : ℕ) (dur : ℚ) (e : ApiError) (s : RunState)
    (hf : is_fatal_auth e = true) :
    attemptStep env cfg dl cid att (.failure dur e) s =
      .thrown e (doCommit (elapse dur (callBegin cfg dl cid att s))) := by
  simp [attemptStep, hf]

theorem attemptStep_failure_quota (env : Env) (cfg : AnalyzeCfg) (dl : Option ℚ)
    (cid : String) (att : ℕ) (dur : ℚ) (e : ApiError) (s : RunState)
    (hf : is_fatal_auth e = false) (hq : (isRateLimit e && is_quota_exhausted e) = true) :
    attemptStep env cfg dl cid att (.failure dur e) s =
      .halt (quotaExit env cfg cid e (elapse dur (callBegin cfg dl cid att s))) := by
  simp [attemptStep, hf, hq]

theorem attemptStep_failure_retry (env : Env) (cfg : AnalyzeCfg) (dl : Option ℚ)
    (cid : String) (att : ℕ) (dur : ℚ) (e : ApiError) (s : RunState)
    (hf : is_fatal_auth e = false) (hq : (isRateLimit e && is_quota_exhausted e) = false)
    (hr : is_retryable e = true) :
    attemptStep env cfg dl cid att (.failure dur e) s =
      .retry (att + 1) (retryBackoffStep dl cid att (elapse dur (callBegin cfg dl cid att s))) := by
  simp [attemptStep, hf, hq, hr]

theorem attemptStep_failure_other (env : Env) (cfg : AnalyzeCfg) (dl : Option ℚ)
    (cid : String) (att : ℕ) (dur : ℚ) (e : ApiError) (s : RunState)
    (hf : is_fatal_auth e = false) (hq : (isRateLimit e && is_quota_exhausted e) = false)
    (hr : is_retryable e = false) :
    attemptStep env cfg dl cid att (.failure dur e) s =
      .advance (plainErrorStep cfg cid e (elapse dur (callBegin cfg dl cid att s))) := by
  simp [attemptStep, hf, hq, hr]

/-! ### Clock bounds and deadline discipline of the step helpers -/

/-- All entries of the log respect deadline `d`. -/
def logOK (d : ℚ) (s : RunState) : Prop := ∀ e ∈ s.log, timeOK d e

theorem now_doSleepWD_le (d sec : ℚ) (s : RunState) (h : s.now ≤ d) :
    (doSleepWD (some d) sec s).now ≤ d := by
  simp only [doSleepWD]
  split
  · exact h
  · rcases sleep_with_deadline_pos_facts sec d s.now (by assumption) with ⟨hle, hlt⟩
    have : max 0 (d - s.now) = d - s.now := max_eq_right (by linarith)
    simp only
    linarith [hle.trans_eq this]

theorem now_pace_le (cfg : AnalyzeCfg) (d : ℚ) (s : RunState) (h : s.now ≤ d) :
    (pace cfg (some d) s).now ≤ d := by
  simp only [pace]
  split
  · exact h
  · split
    · exact now_doSleepWD_le d _ s h
    · exact h

theorem logOK_doSleepWD (d sec : ℚ) (s : RunState) (h : logOK d s) :
    logOK d (doSleepWD (some d) sec s) := by
  simp only [doSleepWD]
  split
  · exact h
  · intro e he
    simp only [List.mem_append, List.mem_singleton] at he
    rcases he with he | rfl
    · exact h e he
    · rcases sleep_with_deadline_pos_facts sec d s.now (by assumption) with ⟨hle, hlt⟩
      exact ⟨hle, hlt⟩

theorem logOK_pace (cfg : AnalyzeCfg) (d : ℚ) (s : RunState) (h : logOK d s) :
    logOK d (pace cfg (some d) s) := by
  simp only [pace]
  split
  · exact h
  · split
    · exact logOK_doSleepWD d _ s h
    · exact h

theorem logOK_callBegin (cfg : AnalyzeCfg) (d : ℚ) (cid : String) (a : ℕ)
    (s : RunState) (hn : s.now ≤ d) (h : logOK d s) :
    logOK d (callBegin cfg (some d) cid a s) := by
  simp only [callBegin]
  intro e he
  simp only [List.mem_append, List.mem_singleton] at he
  rcases he with he | rfl
  · exact logOK_pace cfg d s h e he
  · exact now_pace_le cfg d s hn

theorem logOK_elapse (d dur : ℚ) (s : RunState) (h : logOK d s) :
    logOK d (elapse dur s) := h

theorem logOK_doCommit (d : ℚ) (s : RunState) (h : logOK d s) :
    logOK d (doCommit s) := by
  intro e he
  simp only [doCommit, List.mem_append, List.mem_singleton] at he
  rcases he with he | rfl
  · exact h e he
  · trivial

theorem logOK_setReason (d : ℚ) (r : String) (s : RunState) (h : logOK d s) :
    logOK d (setReason r s) := h

theorem logOK_doCleanup (env : Env) (cfg : AnalyzeCfg) (d : ℚ) (s : RunState)
    (h : logOK d s) : logOK d (doCleanup env cfg s) := by
  intro e he
  simp only [doCleanup, List.mem_append, List.mem_singleton] at he
  rcases he with he | rfl
  · exact h e he
  · trivial

theorem logOK_successStep (cfg : AnalyzeCfg) (d : ℚ) (cid : String)
    (rows : List (String × Sentiment)) (s : RunState) (h : logOK d s) :
    logOK d (successStep cfg cid rows s) := by
  simp only [successStep]
  split
  · exact logOK_doCommit d _ h
  · exact h

theorem logOK_shortcutStep (cfg : AnalyzeCfg) (d : ℚ) (cid : String)
    (s : RunState) (h : logOK d s) : logOK d (shortcutStep cfg cid s) := by
  simp only [shortcutStep]
  split
  · exact logOK_doCommit d _ h
  · exact h

theorem logOK_timeoutExit (env : Env) (cfg : AnalyzeCfg) (d : ℚ) (s : RunState)
    (h : logOK d s) : logOK d (timeoutExit env cfg s) :=
  logOK_doCleanup env cfg d _ (logOK_doCommit d _ (logOK_setReason d _ s h))

theorem logOK_ctrlCExit (env : Env) (cfg : AnalyzeCfg) (d : ℚ) (s : RunState)
    (h : logOK d s) : logOK d (ctrlCExit env cfg s) :=
  logOK_doCleanup env cfg d _ (logOK_setReason d _ _ (logOK_doCommit d s h))

theorem logOK_quotaExit (env : Env) (cfg : AnalyzeCfg) (d : ℚ) (cid : String)
    (e : ApiError) (s : RunState) (h : logOK d s) : logOK d (quotaExit env cfg cid e s) := by
  simp only [quotaExit]
  exact logOK_doCleanup env cfg d _ (logOK_setReason d _ _ (logOK_doCommit d _ h))

theorem logOK_retryBackoffStep (d : ℚ) (cid : String) (a : ℕ) (s : RunState)
    (h : logOK d s) : logOK d (retryBackoffStep (some d) cid a s) := by
  simp only [retryBackoffStep]
  refine logOK_doSleepWD d _ _ ?_
  intro e he
  simp only [List.mem_append, List.mem_singleton] at he
  rcases he with he | rfl
  · exact h e he
  · trivial

theorem logOK_plainErrorStep (cfg : AnalyzeCfg) (d : ℚ) (cid : String)
    (e : ApiError) (s : RunState) (h : logOK d s) : logOK d (plainErrorStep cfg cid e s) := by
  simp only [plainErrorStep]
  exact logOK_doCommit d _ h

/-! ### One-step unfolding equations for the loops -/

theorem attemptLoop_elapsed (env : Env) (cfg : AnalyzeCfg) (dl : Option ℚ)
    (cid : String) (attempt : ℕ) (trace : List CallEvent) (s : RunState)
    (h : deadlineElapsed dl s.now = true) :
    attemptLoop env cfg dl cid attempt trace s = .halt (timeoutExit env cfg s) trace := by
  rw [attemptLoop.eq_def]
  simp [h]

theorem attemptLoop_nil (env : Env) (cfg : AnalyzeCfg) (dl : Option ℚ)
    (cid : String) (attempt : ℕ) (s : RunState)
    (h : deadlineElapsed dl s.now = false) :
    attemptLoop env cfg dl cid attempt [] s = .starved s := by
  rw [attemptLoop.eq_def]
  simp [h]

theorem attemptLoop_cons (env : Env) (cfg : AnalyzeCfg) (dl : Option ℚ)
    (cid : String) (attempt : ℕ) (ev : CallEvent) (rest : List CallEvent) (s : RunState)
    (h : deadlineElapsed dl s.now = false) :
    attemptLoop env cfg dl cid attempt (ev :: rest) s =
      match attemptStep env cfg dl cid attempt ev s with
      | .retry a s' => attemptLoop env cfg dl cid a rest s'
      | .advance s' => .advance s' rest
      | .halt s' => .halt s' rest
      | .thrown e s' => .thrown e s' rest := by
  rw [attemptLoop.eq_def]
  simp [h]

theorem candLoop_nil (env : Env) (cfg : AnalyzeCfg) (dl : Option ℚ)
    (trace : List CallEvent) (s : RunState) :
    candLoop env cfg dl [] trace s = .done (doCleanup env cfg (doCommit s)) := by
  rw [candLoop]

theorem candLoop_elapsed (env : Env) (cfg : AnalyzeCfg) (dl : Option ℚ)
    (cid body : String) (more : List (String × String)) (trace : List CallEvent)
    (s : RunState) (h : deadlineElapsed dl s.now = true) :
    candLoop env cfg dl ((cid, body) :: more) trace s = .done (timeoutExit env cfg s) := by
  rw [candLoop]
  simp [h]

theorem candLoop_emptyBody (env : Env) (cfg : AnalyzeCfg) (dl : Option ℚ)
    (cid body : String) (more : List (String × String)) (trace : List CallEvent)
    (s : RunState) (h : deadlineElapsed dl s.now = false) (hb : pyStrip body = "") :
    candLoop env cfg dl ((cid, body) :: more) trace s = candLoop env cfg dl more trace s := by
  rw [candLoop]
  simp [h, hb]

theorem candLoop_shortcut (env : Env) (cfg : AnalyzeCfg) (dl : Option ℚ)
    (cid body : String) (more : List (String × String)) (trace : List CallEvent)
    (s : RunState) (h : deadlineElapsed dl s.now = false) (hb : pyStrip body ≠ "")
    (hs : (env.enableKeywordShortcut && !env.hasFinanceHint (pyStrip body)) = true) :
    candLoop env cfg dl ((cid, body) :: more) trace s =
      candLoop env cfg dl more trace (shortcutStep cfg cid s) := by
  rw [candLoop]
  simp [h, hb, hs]

theorem candLoop_attempt (env : Env) (cfg : AnalyzeCfg) (dl : Option ℚ)
    (cid body : String) (more : List (String × String)) (trace : List CallEvent)
    (s : RunState) (h : deadlineElapsed dl s.now = false) (hb : pyStrip body ≠ "")
    (hs : (env.enableKeywordShortcut && !env.hasFinanceHint (pyStrip body)) = false) :
    candLoop env cfg dl ((cid, body) :: more) trace s =
      match attemptLoop env cfg dl cid 0 trace s with
      | .advance s' rest => candLoop env cfg dl more rest s'
      | .halt s' _ => .done s'
      | .thrown e s' _ => .thrown e s'
      | .starved s' => .starved s' := by
  rw [candLoop]
  simp [h, hb, hs]

/-! ### Run-level invariants -/

/-- The state inside an attempt-loop result. -/
def innerState : InnerRes → RunState
  | .advance s _ => s
  | .halt s _ => s
  | .thrown _ s _ => s
  | .starved s => s

/-- Cleanup count expected of an attempt-loop result relative to `base`: exactly one
more on a run-stopping `halt`, unchanged otherwise. -/
def innerCC (base : ℕ) : InnerRes → Prop
  | .advance s _ => countCleanup s.log = base
  | .halt s _ => countCleanup s.log = base + 1
  | .thrown _ s _ => countCleanup s.log = base
  | .starved s => countCleanup s.log = base

/-- Cleanup count expected of a whole-run result relative to `base`: exactly one
more on a returned outcome, unchanged when an error propagates or the trace ran out. -/
def runCC (base : ℕ) : RunResult → Prop
  | .done s => countCleanup s.log = base + 1
  | .thrown _ s => countCleanup s.log = base
  | .starved s => countCleanup s.log = base

theorem cc_attemptLoop (env : Env) (cfg : AnalyzeCfg) (dl : Option ℚ) (cid : String) :
    ∀ (trace : List CallEvent) (attempt : ℕ) (s : RunState),
      innerCC (countCleanup s.log) (attemptLoop env cfg dl cid attempt trace s) := by
  intro trace
  induction trace with
  | nil =>
    intro attempt s
    rcases hd : deadlineElapsed dl s.now with _ | _
    · rw [attemptLoop_nil env cfg dl cid attempt s hd]
      simp [innerCC]
    · rw [attemptLoop_elapsed env cfg dl cid attempt [] s hd]
      simp [innerCC, cc_timeoutExit]
  | cons ev rest ih =>
    intro attempt s
    rcases hd : deadlineElapsed dl s.now with _ | _
    · rw [attemptLoop_cons env cfg dl cid attempt ev rest s hd]
      cases ev with
      | success dur rows =>
        rw [attemptStep_success]
        simp [innerCC, cc_successStep, cc_elapse, cc_callBegin]
      | kbInt dur =>
        rw [attemptStep_kbInt]
        simp [innerCC, cc_ctrlCExit, cc_elapse, cc_callBegin]
      | failure dur e =>
        rcases hf : is_fatal_auth e with _ | _
        · rcases hq : (isRateLimit e && is_quota_exhausted e) with _ | _
          · rcases hr : is_retryable e with _ | _
            · rw [attemptStep_failure_other env cfg dl cid attempt dur e s hf hq hr]
              simp [innerCC, cc_plainErrorStep, cc_elapse, cc_callBegin]
            · rw [attemptStep_failure_retry env cfg dl cid attempt dur e s hf hq hr]
              have h2 := ih (attempt + 1)
                (retryBackoffStep dl cid attempt (elapse dur (callBegin cfg dl cid attempt s)))
              rw [cc_retryBackoffStep, cc_elapse, cc_callBegin] at h2
              exact h2
          · rw [attemptStep_failure_quota env cfg dl cid attempt dur e s hf hq]
            simp [innerCC, cc_quotaExit, cc_elapse, cc_callBegin]
        · rw [attemptStep_failure_auth env cfg dl cid attempt dur e s hf]
          simp [innerCC, cc_doCommit, cc_elapse, cc_callBegin]
    · rw [attemptLoop_elapsed env cfg dl cid attempt (ev :: rest) s hd]
      simp [innerCC, cc_timeoutExit]

theorem cc_candLoop (env : Env) (cfg : AnalyzeCfg) (dl : Option ℚ) :
    ∀ (cands : List (String × String)) (trace : List CallEvent) (s : RunState),
      runCC (countCleanup s.log) (candLoop env cfg dl cands trace s) := by
  intro cands
  induction cands with
  | nil =>
    intro trace s
    rw [candLoop_nil]
    simp [runCC, cc_doCleanup, cc_doCommit]
  | cons cand more ih =>
    obtain ⟨cid, body⟩ := cand
    intro trace s
    rcases hd : deadlineElapsed dl s.now with _ | _
    · by_cases hb : pyStrip body = ""
      · rw [candLoop_emptyBody env cfg dl cid body more trace s hd hb]
        exact ih trace s
      · rcases hs : (env.enableKeywordShortcut && !env.hasFinanceHint (pyStrip body))
          with _ | _
        · rw [candLoop_attempt env cfg dl cid body more trace s hd hb hs]
          have hal := cc_attemptLoop env cfg dl cid trace 0 s
          rcases har : attemptLoop env cfg dl cid 0 trace s with
            ⟨s', rest⟩ | ⟨s', rest⟩ | ⟨e, s', rest⟩ | ⟨s'⟩
          · rw [har] at hal
            simp only [innerCC] at hal
            have h2 := ih rest s'
            rw [hal] at h2
            simpa using h2
          · rw [har] at hal
            simp only [innerCC] at hal
            simp [runCC, hal]
          · rw [har] at hal
            simp only [innerCC] at hal
            simp [runCC, hal]
          · rw [har] at hal
            simp only [innerCC] at hal
            simp [runCC, hal]
        · rw [candLoop_shortcut env cfg dl cid body more trace s hd hb hs]
          have h2 := ih trace (shortcutStep cfg cid s)
          rw [cc_shortcutStep] at h2
          exact h2
    · rw [candLoop_elapsed env cfg dl cid body more trace s hd]
      simp [runCC, cc_timeoutExit]

theorem logOK_attemptLoop (env : Env) (cfg : AnalyzeCfg) (d : ℚ) (cid : String) :
    ∀ (trace : List CallEvent) (attempt : ℕ) (s : RunState), logOK d s →
      logOK d (innerState (attemptLoop env cfg (some d) cid attempt trace s)) := by
  intro trace
  induction trace with
  | nil =>
    intro attempt s h
    rcases hd : deadlineElapsed (some d) s.now with _ | _
    · rw [attemptLoop_nil env cfg (some d) cid attempt s hd]
      exact h
    · rw [attemptLoop_elapsed env cfg (some d) cid attempt [] s hd]
      exact logOK_timeoutExit env cfg d s h
  | cons ev rest ih =>
    intro attempt s h
    rcases hd : deadlineElapsed (some d) s.now with _ | _
    · have hnow : s.now ≤ d := by
        simp only [deadlineElapsed, decide_eq_false_iff_not] at hd
        linarith [lt_of_not_le hd]
      rw [attemptLoop_cons env cfg (some d) cid attempt ev rest s hd]
      have hcb : logOK d (callBegin cfg (some d) cid attempt s) :=
        logOK_callBegin cfg d cid attempt s hnow h
      cases ev with
      | success dur rows =>
        rw [attemptStep_success]
        exact logOK_successStep cfg d cid rows _ (logOK_elapse d dur _ hcb)
      | kbInt dur =>
        rw [attemptStep_kbInt]
        exact logOK_ctrlCExit env cfg d _ (logOK_elapse d dur _ hcb)
      | failure dur e =>
        rcases hf : is_fatal_auth e with _ | _
        · rcases hq : (isRateLimit e && is_quota_exhausted e) with _ | _
          · rcases hr : is_retryable e with _ | _
            · rw [attemptStep_failure_other env cfg (some d) cid attempt dur e s hf hq hr]
              exact logOK_plainErrorStep cfg d cid e _ (logOK_elapse d dur _ hcb)
            · rw [attemptStep_failure_retry env cfg (some d) cid attempt dur e s hf hq hr]
              exact ih (attempt + 1) _
                (logOK_retryBackoffStep d cid attempt _ (logOK_elapse d dur _ hcb))
          · rw [attemptStep_failure_quota env cfg (some d) cid attempt dur e s hf hq]
            exact logOK_quotaExit env cfg d cid e _ (logOK_elapse d dur _ hcb)
        · rw [attemptStep_failure_auth env cfg (some d) cid attempt dur e s hf]
          exact logOK_doCommit d _ (logOK_elapse d dur _ hcb)
    · rw [attemptLoop_elapsed env cfg (some d) cid attempt (ev :: rest) s hd]
      exact logOK_timeoutExit env cfg d s h

theorem logOK_candLoop (env : Env) (cfg : AnalyzeCfg) (d : ℚ) :
    ∀ (cands : List (String × String)) (trace : List CallEvent) (s : RunState), logOK d s →
      logOK d (resState (candLoop env cfg (some d) cands trace s)) := by
  intro cands
  induction cands with
  | nil =>
    intro trace s h
    rw [candLoop_nil]
    exact logOK_doCleanup env cfg d _ (logOK_doCommit d s h)
  | cons cand more ih =>
    obtain ⟨cid, body⟩ := cand
    intro trace s h
    rcases hd : deadlineElapsed (some d) s.now with _ | _
    · by_cases hb : pyStrip body = ""
      · rw [candLoop_emptyBody env cfg (some d) cid body more trace s hd hb]
        exact ih trace s h
      · rcases hs : (env.enableKeywordShortcut && !env.hasFinanceHint (pyStrip body))
          with _ | _
        · rw [candLoop_attempt env cfg (some d) cid body more trace s hd hb hs]
          have hal := logOK_attemptLoop env cfg d cid trace 0 s h
          rcases har : attemptLoop env cfg (some d) cid 0 trace s with
            ⟨s', rest⟩ | ⟨s', rest⟩ | ⟨e, s', rest⟩ | ⟨s'⟩
          · rw [har] at hal
            exact ih rest s' hal
          · rw [har] at hal
            exact hal
          · rw [har] at hal
            exact hal
          · rw [har] at hal
            exact hal
        · rw [candLoop_shortcut env cfg (some d) cid body more trace s hd hb hs]
          exact ih trace _ (logOK_shortcutStep cfg d cid s h)
    · rw [candLoop_elapsed env cfg (some d) cid body more trace s hd]
      exact logOK_timeoutExit env cfg d s h

/-! ### Store-level lemmas -/

theorem find_upsert (rows : List OutcomeRow) (r : OutcomeRow) :
    (upsertOutcome rows r).find? (fun x => x.tag == r.tag && x.commentId == r.commentId)
      = some r := by
  unfold upsertOutcome
  induction rows with
  | nil =>
    simp only [List.filter_nil, List.nil_append]
    exact List.find?_cons_of_pos _ (by simp)
  | cons a t ih =>
    cases h : (a.tag == r.tag && a.commentId == r.commentId) with
    | true =>
      rw [List.filter_cons_of_neg (by simp [h])]
      exact ih
    | false =>
      rw [List.filter_cons_of_pos (by simp [h]), List.cons_append,
        List.find?_cons_of_neg _ (by simp [h])]
      exact ih

theorem outcomeFor_eq_of (d d' : DBState) (h : d.outcomes = d'.outcomes)
    (tag cid : String) : outcomeFor d tag cid = outcomeFor d' tag cid := by
  unfold outcomeFor
  rw [h]

theorem outcomeFor_mark_ok (c : Conn) (tag cid model : String) :
    outcomeFor (mark_analyzed_ok c tag cid model).current tag cid
      = some ⟨tag, cid, model, .ok⟩ := by
  unfold outcomeFor mark_analyzed_ok
  exact find_upsert c.current.outcomes ⟨tag, cid, model, .ok⟩

theorem outcomeFor_mark_error (c : Conn) (tag cid model err : String) :
    outcomeFor (mark_analyzed_error c tag cid model err).current tag cid
      = some ⟨tag, cid, model, .error err⟩ := by
  unfold outcomeFor mark_analyzed_error
  exact find_upsert c.current.outcomes ⟨tag, cid, model, .error err⟩

theorem mentionsFor_save_mentions (c : Conn) (tag cid model : String)
    (rows : List (String × Sentiment)) :
    mentionsFor (save_mentions c tag cid model rows).current tag cid
      = rows.map fun p => (⟨tag, cid, p.1, p.2, model⟩ : MentionRow) := by
  unfold mentionsFor save_mentions
  simp only [List.filter_append]
  have h1 : (c.current.mentions.filter fun m =>
      !(m.tag == tag && m.commentId == cid)).filter
        (fun m => m.tag == tag && m.commentId == cid) = [] := by
    rw [List.filter_filter]
    have heq : ∀ m : MentionRow,
        ((m.tag == tag && m.commentId == cid) && !(m.tag == tag && m.commentId == cid))
          = false := fun m => Bool.and_not_self _
    simp only [heq]
    exact List.filter_false _
  have h2 : (rows.map fun p => (⟨tag, cid, p.1, p.2, model⟩ : MentionRow)).filter
      (fun m => m.tag == tag && m.commentId == cid)
        = rows.map fun p => (⟨tag, cid, p.1, p.2, model⟩ : MentionRow) := by
    apply List.filter_eq_self.mpr
    intro m hm
    obtain ⟨p, _, rfl⟩ := List.mem_map.mp hm
    simp
  rw [h1, h2, List.nil_append]

theorem not_candidate_of_ok (c : Conn) (tag : String) (re : Bool) (cid model : String)
    (h : outcomeFor c.current tag cid = some ⟨tag, cid, model, .ok⟩) :
    isCandidate c tag re cid = false := by
  unfold isCandidate
  rw [h]

theorem fetch_candidates_not_mem (c : Conn) (tag : String) (limit : ℕ) (re : Bool)
    (cid body : String) (h : isCandidate c tag re cid = false) :
    (cid, body) ∉ fetch_candidates c tag limit re := by
  intro hmem
  unfold fetch_candidates at hmem
  have hf := List.take_subset _ _ hmem
  have hp := List.of_mem_filter hf
  simp only at hp
  rw [h] at hp
  cases hp

theorem candidate_of_pending (c : Conn) (tag : String) (re : Bool) (cid : String)
    (h : outcomeFor c.current tag cid = none) : isCandidate c tag re cid = true := by
  unfold isCandidate
  rw [h]

/-! ### Facts about the validity post-pass and the stop paths -/

theorem cleanup_current_outcomes (env : Env) (c : Conn) (tag : String) :
    (cleanup_invalid_tickers env c tag).1.current.outcomes = c.current.outcomes := by
  simp only [cleanup_invalid_tickers]
  split
  · rfl
  · split
    · rfl
    · split
      · rfl
      · simp [delete_mentions_for_tickers, Conn.commit]

theorem cleanup_committed_outcomes (env : Env) (c : Conn) (tag : String)
    (h : c.committed.outcomes = c.current.outcomes) :
    (cleanup_invalid_tickers env c tag).1.committed.outcomes = c.current.outcomes := by
  simp only [cleanup_invalid_tickers]
  split
  · exact h
  · split
    · exact h
    · split
      · exact h
      · simp [delete_mentions_for_tickers, Conn.commit]

theorem cleanup_disabled (env : Env) (c : Conn) (tag : String)
    (h : env.enableYfinanceValidation = false) :
    cleanup_invalid_tickers env c tag = (c, 0) := by
  simp [cleanup_invalid_tickers, h]

theorem cleanup_no_mentions (env : Env) (c : Conn) (tag : String)
    (h : c.current.mentions.filter (fun m => m.tag == tag) = []) :
    cleanup_invalid_tickers env c tag = (c, 0) := by
  have hempty : fetch_distinct_mentioned_tickers c tag = [] := by
    unfold fetch_distinct_mentioned_tickers
    rw [h]
    rfl
  simp only [cleanup_invalid_tickers]
  split
  · rfl
  · rw [hempty]
    rfl

theorem doCommit_conn (s : RunState) : (doCommit s).conn = s.conn.commit := rfl

theorem doCleanup_conn (env : Env) (cfg : AnalyzeCfg) (s : RunState) :
    (doCleanup env cfg s).conn = (cleanup_invalid_tickers env s.conn cfg.analysis_tag).1 := by
  simp only [doCleanup]

theorem doCleanup_out (env : Env) (cfg : AnalyzeCfg) (s : RunState) :
    (doCleanup env cfg s).out = s.out := by
  simp only [doCleanup]

theorem doCleanup_log (env : Env) (cfg : AnalyzeCfg) (s : RunState) :
    (doCleanup env cfg s).log = s.log ++ [LogEntry.cleanupEv] := by
  simp only [doCleanup]

theorem doCleanup_cleanup_mem (env : Env) (cfg : AnalyzeCfg) (s : RunState) :
    LogEntry.cleanupEv ∈ (doCleanup env cfg s).log := by
  rw [doCleanup_log]
  simp

theorem ctrlCExit_facts (env : Env) (cfg : AnalyzeCfg) (t : RunState) :
    (ctrlCExit env cfg t).out = { t.out with stopped_reason := some "ctrl_c" } ∧
    (ctrlCExit env cfg t).conn.current.outcomes = t.conn.current.outcomes ∧
    (ctrlCExit env cfg t).conn.committed.outcomes = t.conn.current.outcomes ∧
    LogEntry.cleanupEv ∈ (ctrlCExit env cfg t).log := by
  unfold ctrlCExit
  refine ⟨?_, ?_, ?_, doCleanup_cleanup_mem env cfg _⟩
  · rw [doCleanup_out]
    rfl
  · rw [doCleanup_conn]
    exact cleanup_current_outcomes env _ cfg.analysis_tag
  · rw [doCleanup_conn]
    exact cleanup_committed_outcomes env _ cfg.analysis_tag rfl

theorem timeoutExit_facts (env : Env) (cfg : AnalyzeCfg) (s : RunState) :
    (timeoutExit env cfg s).out = { s.out with stopped_reason := some "timeout" } ∧
    (timeoutExit env cfg s).conn.committed.outcomes = s.conn.current.outcomes ∧
    LogEntry.cleanupEv ∈ (timeoutExit env cfg s).log := by
  unfold timeoutExit
  refine ⟨?_, ?_, doCleanup_cleanup_mem env cfg _⟩
  · rw [doCleanup_out]
    rfl
  · rw [doCleanup_conn]
    exact cleanup_committed_outcomes env _ cfg.analysis_tag rfl

theorem quotaExit_facts (env : Env) (cfg : AnalyzeCfg) (cid : String) (e : ApiError)
    (t : RunState) :
    (quotaExit env cfg cid e t).out = { t.out with stopped_reason := some "quota" } ∧
    outcomeFor (quotaExit env cfg cid e t).conn.current cfg.analysis_tag cid
      = some ⟨cfg.analysis_tag, cid, cfg.model, .error (e.typeName ++ ": " ++ e.msg)⟩ ∧
    outcomeFor (quotaExit env cfg cid e t).conn.committed cfg.analysis_tag cid
      = some ⟨cfg.analysis_tag, cid, cfg.model, .error (e.typeName ++ ": " ++ e.msg)⟩ ∧
    LogEntry.cleanupEv ∈ (quotaExit env cfg cid e t).log := by
  unfold quotaExit
  refine ⟨?_, ?_, ?_, doCleanup_cleanup_mem env cfg _⟩
  · rw [doCleanup_out]
    rfl
  · rw [outcomeFor_eq_of _
      (mark_analyzed_error t.conn cfg.analysis_tag cid cfg.model
        (e.typeName ++ ": " ++ e.msg)).current
      (by rw [doCleanup_conn]; exact cleanup_current_outcomes env _ cfg.analysis_tag)]
    exact outcomeFor_mark_error t.conn cfg.analysis_tag cid cfg.model _
  · rw [outcomeFor_eq_of _
      (mark_analyzed_error t.conn cfg.analysis_tag cid cfg.model
        (e.typeName ++ ": " ++ e.msg)).current
      (by rw [doCleanup_conn]; exact cleanup_committed_outcomes env _ cfg.analysis_tag rfl)]
    exact outcomeFor_mark_error t.conn cfg.analysis_tag cid cfg.model _

/-! ### Connection/outcome preservation of the pre-call helpers -/

theorem doSleepWD_conn (dl : Option ℚ) (sec : ℚ) (s : RunState) :
    (doSleepWD dl sec s).conn = s.conn := by
  simp only [doSleepWD]
  split <;> rfl

theorem doSleepWD_out (dl : Option ℚ) (sec : ℚ) (s : RunState) :
    (doSleepWD dl sec s).out = s.out := by
  simp only [doSleepWD]
  split <;> rfl

theorem pace_conn (cfg : AnalyzeCfg) (dl : Option ℚ) (s : RunState) :
    (pace cfg dl s).conn = s.conn := by
  simp only [pace]
  split
  · rfl
  · split
    · exact doSleepWD_conn dl _ s
    · rfl

theorem pace_out (cfg : AnalyzeCfg) (dl : Option ℚ) (s : RunState) :
    (pace cfg dl s).out = s.out := by
  simp only [pace]
  split
  · rfl
  · split
    · exact doSleepWD_out dl _ s
    · rfl

theorem callBegin_conn (cfg : AnalyzeCfg) (dl : Option ℚ) (cid : String) (a : ℕ)
    (s : RunState) : (callBegin cfg dl cid a s).conn = s.conn := by
  simp only [callBegin]
  exact pace_conn cfg dl s

theorem callBegin_out (cfg : AnalyzeCfg) (dl : Option ℚ) (cid : String) (a : ℕ)
    (s : RunState) : (callBegin cfg dl cid a s).out = s.out := by
  simp only [callBegin]
  exact pace_out cfg dl s

theorem elapse_conn (dur : ℚ) (s : RunState) : (elapse dur s).conn = s.conn := rfl

theorem elapse_out (dur : ℚ) (s : RunState) : (elapse dur s).out = s.out := rfl

theorem retryBackoffStep_conn (dl : Option ℚ) (cid : String) (a : ℕ) (s : RunState) :
    (retryBackoffStep dl cid a s).conn = s.conn := by
  simp only [retryBackoffStep]
  exact doSleepWD_conn dl _ _

theorem retryBackoffStep_out (dl : Option ℚ) (cid : String) (a : ℕ) (s : RunState) :
    (retryBackoffStep dl cid a s).out = s.out := by
  simp only [retryBackoffStep]
  exact doSleepWD_out dl _ _

theorem retryBackoffStep_now (dl : Option ℚ) (cid : String) (a : ℕ) (s : RunState) :
    (retryBackoffStep dl cid a s).now
      = s.now + sleep_with_deadline (backoff_seconds a) dl s.now := by
  simp only [retryBackoffStep, doSleepWD]
  split
  · simp only [RunState.mk.injEq]
    rw [show (sleep_with_deadline (backoff_seconds a) dl s.now) = 0 from by assumption]
    simp
  · rfl

theorem retryBackoffStep_backoff_mem (dl : Option ℚ) (cid : String) (a : ℕ)
    (s : RunState) :
    LogEntry.backoffEv cid a (backoff_seconds a) ∈ (retryBackoffStep dl cid a s).log := by
  simp only [retryBackoffStep, doSleepWD]
  split <;> simp

/-! ### Facts about the per-item outcome steps -/

theorem mentionsFor_mark_ok (c : Conn) (t1 c1 m1 tag cid : String) :
    mentionsFor (mark_analyzed_ok c t1 c1 m1).current tag cid
      = mentionsFor c.current tag cid := rfl

theorem successStep_persists (cfg : AnalyzeCfg) (cid : String)
    (rows : List (String × Sentiment)) (s : RunState) :
    outcomeFor (successStep cfg cid rows s).conn.current cfg.analysis_tag cid
      = some ⟨cfg.analysis_tag, cid, cfg.model, .ok⟩ ∧
    mentionsFor (successStep cfg cid rows s).conn.current cfg.analysis_tag cid
      = rows.map fun p => (⟨cfg.analysis_tag, cid, p.1, p.2, cfg.model⟩ : MentionRow) := by
  simp only [successStep]
  split <;>
    exact ⟨outcomeFor_mark_ok _ cfg.analysis_tag cid cfg.model,
      (mentionsFor_mark_ok _ _ _ _ _ _).trans
        (mentionsFor_save_mentions s.conn cfg.analysis_tag cid cfg.model rows)⟩

theorem successStep_out (cfg : AnalyzeCfg) (cid : String)
    (rows : List (String × Sentiment)) (s : RunState) :
    (successStep cfg cid rows s).out.analyzed = s.out.analyzed + 1 ∧
    (successStep cfg cid rows s).out.analyzed_model_calls
      = s.out.analyzed_model_calls + 1 ∧
    (successStep cfg cid rows s).out.errors = s.out.errors ∧
    (successStep cfg cid rows s).out.stopped_reason = s.out.stopped_reason := by
  simp only [successStep]
  split <;> exact ⟨rfl, rfl, rfl, rfl⟩

theorem successStep_commit (cfg : AnalyzeCfg) (cid : String)
    (rows : List (String × Sentiment)) (s : RunState) :
    ((s.out.analyzed + 1) % 10 = 0 →
      (successStep cfg cid rows s).log = s.log ++ [LogEntry.commitEv] ∧
      (successStep cfg cid rows s).conn.committed
        = (successStep cfg cid rows s).conn.current) ∧
    ((s.out.analyzed + 1) % 10 ≠ 0 →
      (successStep cfg cid rows s).log = s.log ∧
      (successStep cfg cid rows s).conn.committed = s.conn.committed) := by
  constructor
  · intro h
    simp only [successStep]
    rw [if_pos (by simp [h])]
    exact ⟨rfl, rfl⟩
  · intro h
    simp only [successStep]
    rw [if_neg (by simp [h])]
    exact ⟨rfl, rfl⟩

theorem shortcutStep_facts (cfg : AnalyzeCfg) (cid : String) (s : RunState) :
    outcomeFor (shortcutStep cfg cid s).conn.current cfg.analysis_tag cid
      = some ⟨cfg.analysis_tag, cid, cfg.model, .ok⟩ ∧
    (shortcutStep cfg cid s).out.analyzed = s.out.analyzed + 1 ∧
    (shortcutStep cfg cid s).out.analyzed_model_calls = s.out.analyzed_model_calls ∧
    (shortcutStep cfg cid s).conn.current.mentions = s.conn.current.mentions := by
  simp only [shortcutStep]
  split <;> exact ⟨outcomeFor_mark_ok s.conn cfg.analysis_tag cid cfg.model, rfl, rfl, rfl⟩

/-! ### Witness fixtures -/

/-- A concrete environment: prefilter and validation off. -/
def envW : Env := ⟨false, fun _ => true, false, fun _ => []⟩

/-- A concrete environment: prefilter on, no text has a finance hint. -/
def envShortcutW : Env := ⟨true, fun _ => false, false, fun _ => []⟩

/-- A concrete configuration without a deadline. -/
def cfgW : AnalyzeCfg := ⟨"tag", "m", 100, false, 0, none⟩

/-- A concrete configuration with `timeout_seconds = 5`. -/
def cfgW5 : AnalyzeCfg := ⟨"tag", "m", 100, false, 0, some 5⟩

/-- A concrete connection holding one pending item. -/
def connW : Conn :=
  ⟨⟨[("c1", "buy AAPL")], [], []⟩, ⟨[("c1", "buy AAPL")], [], []⟩⟩

/-- A fresh run state over `connW` at time 0. -/
def stateW : RunState := ⟨connW, 0, 0, ⟨0, 0, 0, none⟩, []⟩

/-! ### The claims -/

/-- C7 (counterexample): with `max_items_per_parent = 0` the slice at
`pipeline.py:172` takes every comment, so "at most 0 items" fails on a one-comment
submission. -/
theorem claim_C7_counterexample :
    takeItems ["c"] 0 = ["c"] ∧ ¬ ((takeItems ["c"] 0).length ≤ 0) := by
  constructor
  · rfl
  · decide

/-- C7 (amended): for every nonzero `max_items_per_parent` the scrape loop takes at
most that many leaf comments per submission, namely the prefix of the comment list
in source order; the value 0 disables the cap and takes every comment. -/
theorem claim_C7_take_amended (comments : List String) (m : ℕ) (hm : m ≠ 0) :
    takeItems comments m = comments.take m ∧
    (takeItems comments m).length ≤ m ∧
    takeItems comments 0 = comments := by
  refine ⟨?_, ?_, ?_⟩
  · unfold takeItems
    rw [if_pos hm]
  · unfold takeItems
    rw [if_pos hm, List.length_take]
    exact min_le_left _ _
  · unfold takeItems
    rw [if_neg (by simp)]

/-- Witness for C7 at `m = 2` on a three-comment list. -/
theorem claim_C7_take_amended_witness :
    (2 : ℕ) ≠ 0 ∧
    (takeItems ["a", "b", "c"] 2 = ["a", "b", "c"].take 2 ∧
      (takeItems ["a", "b", "c"] 2).length ≤ 2 ∧
      takeItems ["a", "b", "c"] 0 = ["a", "b", "c"]) :=
  ⟨by decide, claim_C7_take_amended ["a", "b", "c"] 2 (by decide)⟩

/-- C5: on a retryable transient failure the wait requested before re-attempting is
`backoff_seconds attempt = min (2 ^ attempt) 20`, non-decreasing in the attempt
number and capped at 20; the sleep actually performed is that wait clamped by the
deadline (at most `max 0 (d - now)`); and the loop repeats on the same candidate
with `attempt + 1`, consuming no further candidate. -/
theorem claim_C5_backoff (env : Env) (cfg : AnalyzeCfg) (deadline : Option ℚ)
    (commentId : String) (attempt : ℕ) (dur : ℚ) (e : ApiError) (s : RunState)
    (hf : is_fatal_auth e = false)
    (hq : (isRateLimit e && is_quota_exhausted e) = false)
    (hr : is_retryable e = true)
    (hd : deadlineElapsed deadline s.now = false) :
    backoff_seconds attempt = min ((2 : ℚ) ^ attempt) 20 ∧
    (∀ a b : ℕ, a ≤ b → backoff_seconds a ≤ backoff_seconds b) ∧
    (∀ a : ℕ, backoff_seconds a ≤ 20) ∧
    (∀ t : RunState, (retryBackoffStep deadline commentId attempt t).now
        = t.now + sleep_with_deadline (backoff_seconds attempt) deadline t.now) ∧
    (∀ d now : ℚ, sleep_with_deadline (backoff_seconds attempt) (some d) now
        ≤ max 0 (d - now)) ∧
    (∀ t : RunState, LogEntry.backoffEv commentId attempt (backoff_seconds attempt)
        ∈ (retryBackoffStep deadline commentId attempt t).log) ∧
    (∀ rest : List CallEvent,
      attemptLoop env cfg deadline commentId attempt (CallEvent.failure dur e :: rest) s
        = attemptLoop env cfg deadline commentId (attempt + 1) rest
            (retryBackoffStep deadline commentId attempt
              (elapse dur (callBegin cfg deadline commentId attempt s)))) := by
  refine ⟨backoff_seconds_eq attempt, fun a b hab => backoff_seconds_mono hab,
    backoff_seconds_le_20,
    fun t => retryBackoffStep_now deadline commentId attempt t,
    fun d now => sleep_with_deadline_le_max _ d now,
    fun t => retryBackoffStep_backoff_mem deadline commentId attempt t,
    fun rest => ?_⟩
  rw [attemptLoop_cons env cfg deadline commentId attempt _ rest s hd,
    attemptStep_failure_retry env cfg deadline commentId attempt dur e s hf hq hr]

/-- Witness for C5 on a timeout failure at attempt 0 with no deadline. -/
theorem claim_C5_backoff_witness :
    is_fatal_auth (ApiError.apiTimeoutError "t") = false ∧
    (isRateLimit (ApiError.apiTimeoutError "t")
      && is_quota_exhausted (ApiError.apiTimeoutError "t")) = false ∧
    is_retryable (ApiError.apiTimeoutError "t") = true ∧
    deadlineElapsed none stateW.now = false ∧
    (backoff_seconds 0 = min ((2 : ℚ) ^ 0) 20 ∧
      (∀ a b : ℕ, a ≤ b → backoff_seconds a ≤ backoff_seconds b) ∧
      (∀ a : ℕ, backoff_seconds a ≤ 20) ∧
      (∀ t : RunState, (retryBackoffStep none "c1" 0 t).now
          = t.now + sleep_with_deadline (backoff_seconds 0) none t.now) ∧
      (∀ d now : ℚ, sleep_with_deadline (backoff_seconds 0) (some d) now
          ≤ max 0 (d - now)) ∧
      (∀ t : RunState, LogEntry.backoffEv "c1" 0 (backoff_seconds 0)
          ∈ (retryBackoffStep none "c1" 0 t).log) ∧
      (∀ rest : List CallEvent,
        attemptLoop envW cfgW none "c1" 0
            (CallEvent.failure 1 (ApiError.apiTimeoutError "t") :: rest) stateW
          = attemptLoop envW cfgW none "c1" 1 rest
              (retryBackoffStep none "c1" 0
                (elapse 1 (callBegin cfgW none "c1" 0 stateW))))) :=
  ⟨rfl, rfl, rfl, rfl,
    claim_C5_backoff envW cfgW none "c1" 0 1 (ApiError.apiTimeoutError "t") stateW
      rfl rfl rfl rfl⟩

/-- C4: on a fatal authentication/permission failure the run commits and re-raises
the error; the outcome table of the in-flight item is untouched — the current state
is exactly what it was before the attempt, and the commit publishes it. -/
theorem claim_C4_fatal_auth (env : Env) (cfg : AnalyzeCfg) (deadline : Option ℚ)
    (cid : String) (attempt : ℕ) (dur : ℚ) (e : ApiError) (s : RunState)
    (rest : List CallEvent)
    (hf : is_fatal_auth e = true)
    (hd : deadlineElapsed deadline s.now = false) :
    attemptLoop env cfg deadline cid attempt (CallEvent.failure dur e :: rest) s
      = .thrown e (doCommit (elapse dur (callBegin cfg deadline cid attempt s))) rest ∧
    (doCommit (elapse dur (callBegin cfg deadline cid attempt s))).conn.committed
      = s.conn.current ∧
    (doCommit (elapse dur (callBegin cfg deadline cid attempt s))).conn.current
      = s.conn.current := by
  refine ⟨?_, ?_, ?_⟩
  · rw [attemptLoop_cons env cfg deadline cid attempt _ rest s hd,
      attemptStep_failure_auth env cfg deadline cid attempt dur e s hf]
  · rw [doCommit_conn, elapse_conn, callBegin_conn]
    rfl
  · rw [doCommit_conn, elapse_conn, callBegin_conn]
    rfl

/-- Witness for C4 on an authentication error. -/
theorem claim_C4_fatal_auth_witness :
    is_fatal_auth (ApiError.authenticationError "bad key") = true ∧
    deadlineElapsed none stateW.now = false ∧
    (attemptLoop envW cfgW none "c1" 0
        (CallEvent.failure 1 (ApiError.authenticationError "bad key") :: []) stateW
      = .thrown (ApiError.authenticationError "bad key")
          (doCommit (elapse 1 (callBegin cfgW none "c1" 0 stateW))) [] ∧
      (doCommit (elapse 1 (callBegin cfgW none "c1" 0 stateW))).conn.committed
        = stateW.conn.current ∧
      (doCommit (elapse 1 (callBegin cfgW none "c1" 0 stateW))).conn.current
        = stateW.conn.current) :=
  ⟨rfl, rfl,
    claim_C4_fatal_auth envW cfgW none "c1" 0 1 (ApiError.authenticationError "bad key")
      stateW [] rfl rfl⟩

/-- C3: a rate-limit failure whose text indicates quota exhaustion stores
Outcome = `error` with the raw `"TypeName: message"` text, commits it, runs the
validity post-pass and halts the run with `stopped_reason = "quota"`; a rate-limit
failure without the quota indication is retryable and re-enters the attempt loop. -/
theorem claim_C3_quota (env : Env) (cfg : AnalyzeCfg) (deadline : Option ℚ)
    (cid : String) (attempt : ℕ) (dur : ℚ) (msg : String) (s : RunState)
    (rest : List CallEvent)
    (hq : is_quota_exhausted (ApiError.rateLimitError msg) = true)
    (hd : deadlineElapsed deadline s.now = false) :
    (attemptLoop env cfg deadline cid attempt
        (CallEvent.failure dur (ApiError.rateLimitError msg) :: rest) s
      = .halt (quotaExit env cfg cid (ApiError.rateLimitError msg)
          (elapse dur (callBegin cfg deadline cid attempt s))) rest) ∧
    (∀ t : RunState,
      (quotaExit env cfg cid (ApiError.rateLimitError msg) t).out.stopped_reason
        = some "quota" ∧
      outcomeFor (quotaExit env cfg cid (ApiError.rateLimitError msg) t).conn.current
          cfg.analysis_tag cid
        = some ⟨cfg.analysis_tag, cid, cfg.model,
            .error ((ApiError.rateLimitError msg).typeName ++ ": "
              ++ (ApiError.rateLimitError msg).msg)⟩ ∧
      outcomeFor (quotaExit env cfg cid (ApiError.rateLimitError msg) t).conn.committed
          cfg.analysis_tag cid
        = some ⟨cfg.analysis_tag, cid, cfg.model,
            .error ((ApiError.rateLimitError msg).typeName ++ ": "
              ++ (ApiError.rateLimitError msg).msg)⟩ ∧
      LogEntry.cleanupEv ∈ (quotaExit env cfg cid (ApiError.rateLimitError msg) t).log) ∧
    (∀ msg' : String, is_quota_exhausted (ApiError.rateLimitError msg') = false →
      is_retryable (ApiError.rateLimitError msg') = true ∧
      ∀ (att : ℕ) (t : RunState),
        attemptStep env cfg deadline cid att
            (CallEvent.failure dur (ApiError.rateLimitError msg')) t
          = .retry (att + 1) (retryBackoffStep deadline cid att
              (elapse dur (callBegin cfg deadline cid att t)))) := by
  refine ⟨?_, ?_, ?_⟩
  · rw [attemptLoop_cons env cfg deadline cid attempt _ rest s hd,
      attemptStep_failure_quota env cfg deadline cid attempt dur
        (ApiError.rateLimitError msg) s rfl (by simp [isRateLimit, hq])]
  · intro t
    have h := quotaExit_facts env cfg cid (ApiError.rateLimitError msg) t
    refine ⟨?_, h.2.1, h.2.2.1, h.2.2.2⟩
    rw [h.1]
  · intro msg' hq'
    refine ⟨rfl, fun att t => ?_⟩
    exact attemptStep_failure_retry env cfg deadline cid att dur
      (ApiError.rateLimitError msg') t rfl (by simp [isRateLimit, hq']) rfl

/-- Witness for C3 with the literal `insufficient_quota` message. -/
theorem claim_C3_quota_witness :
    is_quota_exhausted (ApiError.rateLimitError "insufficient_quota") = true ∧
    deadlineElapsed none stateW.now = false ∧
    (attemptLoop envW cfgW none "c1" 0
        (CallEvent.failure 1 (ApiError.rateLimitError "insufficient_quota") :: []) stateW
      = .halt (quotaExit envW cfgW "c1" (ApiError.rateLimitError "insufficient_quota")
          (elapse 1 (callBegin cfgW none "c1" 0 stateW))) []) ∧
    (∀ t : RunState,
      (quotaExit envW cfgW "c1" (ApiError.rateLimitError "insufficient_quota") t).out.stopped_reason
        = some "quota" ∧
      outcomeFor (quotaExit envW cfgW "c1"
          (ApiError.rateLimitError "insufficient_quota") t).conn.current
          cfgW.analysis_tag "c1"
        = some ⟨cfgW.analysis_tag, "c1", cfgW.model,
            .error ((ApiError.rateLimitError "insufficient_quota").typeName ++ ": "
              ++ (ApiError.rateLimitError "insufficient_quota").msg)⟩ ∧
      outcomeFor (quotaExit envW cfgW "c1"
          (ApiError.rateLimitError "insufficient_quota") t).conn.committed
          cfgW.analysis_tag "c1"
        = some ⟨cfgW.analysis_tag, "c1", cfgW.model,
            .error ((ApiError.rateLimitError "insufficient_quota").typeName ++ ": "
              ++ (ApiError.rateLimitError "insufficient_quota").msg)⟩ ∧
      LogEntry.cleanupEv ∈ (quotaExit envW cfgW "c1"
          (ApiError.rateLimitError "insufficient_quota") t).log) ∧
    (∀ msg' : String,
      is_quota_exhausted (ApiError.rateLimitError msg') = false →
      is_retryable (ApiError.rateLimitError msg') = true ∧
      ∀ (att : ℕ) (t : RunState),
        attemptStep envW cfgW none "c1" att
            (CallEvent.failure 1 (ApiError.rateLimitError msg')) t
          = .retry (att + 1) (retryBackoffStep none "c1" att
              (elapse 1 (callBegin cfgW none "c1" att t)))) := by
  refine ⟨by decide, rfl, ?_⟩
  exact claim_C3_quota envW cfgW none "c1" 0 1 "insufficient_quota" stateW []
    (by decide) rfl

/-- C2: a `KeyboardInterrupt` raised during an attempt makes the run commit, set
`stopped_reason = "ctrl_c"`, run the validity post-pass and halt; the counters
accumulated so far are returned unchanged and every Outcome row present in the
current state at the interruption is in the committed database afterwards. -/
theorem claim_C2_interrupt (env : Env) (cfg : AnalyzeCfg) (deadline : Option ℚ)
    (cid : String) (attempt : ℕ) (dur : ℚ) (s : RunState) (rest : List CallEvent)
    (hd : deadlineElapsed deadline s.now = false) :
    (attemptLoop env cfg deadline cid attempt (CallEvent.kbInt dur :: rest) s
      = .halt (ctrlCExit env cfg (elapse dur (callBegin cfg deadline cid attempt s))) rest) ∧
    (∀ t : RunState,
      (ctrlCExit env cfg t).out = { t.out with stopped_reason := some "ctrl_c" } ∧
      (ctrlCExit env cfg t).conn.current.outcomes = t.conn.current.outcomes ∧
      (ctrlCExit env cfg t).conn.committed.outcomes = t.conn.current.outcomes ∧
      LogEntry.cleanupEv ∈ (ctrlCExit env cfg t).log) ∧
    (elapse dur (callBegin cfg deadline cid attempt s)).out = s.out ∧
    (elapse dur (callBegin cfg deadline cid attempt s)).conn = s.conn := by
  refine ⟨?_, fun t => ctrlCExit_facts env cfg t, ?_, ?_⟩
  · rw [attemptLoop_cons env cfg deadline cid attempt _ rest s hd,
      attemptStep_kbInt]
  · rw [elapse_out, callBegin_out]
  · rw [elapse_conn, callBegin_conn]

/-- Witness for C2 at a concrete interrupt. -/
theorem claim_C2_interrupt_witness :
    deadlineElapsed none stateW.now = false ∧
    ((attemptLoop envW cfgW none "c1" 0 (CallEvent.kbInt 1 :: []) stateW
      = .halt (ctrlCExit envW cfgW (elapse 1 (callBegin cfgW none "c1" 0 stateW))) []) ∧
    (∀ t : RunState,
      (ctrlCExit envW cfgW t).out = { t.out with stopped_reason := some "ctrl_c" } ∧
      (ctrlCExit envW cfgW t).conn.current.outcomes = t.conn.current.outcomes ∧
      (ctrlCExit envW cfgW t).conn.committed.outcomes = t.conn.current.outcomes ∧
      LogEntry.cleanupEv ∈ (ctrlCExit envW cfgW t).log) ∧
    (elapse 1 (callBegin cfgW none "c1" 0 stateW)).out = stateW.out ∧
    (elapse 1 (callBegin cfgW none "c1" 0 stateW)).conn = stateW.conn) :=
  ⟨rfl, claim_C2_interrupt envW cfgW none "c1" 0 1 stateW [] rfl⟩

/-- C6: when the prefilter is enabled and rejects the candidate's text, the loop
advances with the same event trace (no classifier call), Outcome = `ok` is recorded
for (item, tag), no mention rows change, the processed counter goes up while the
model-call counter does not; and any connection holding that `ok` Outcome excludes
the item from candidate selection, so a re-run under the same tag never reprocesses
it. -/
theorem claim_C6_prefilter (env : Env) (cfg : AnalyzeCfg) (dl : Option ℚ)
    (cid body : String) (more : List (String × String)) (trace : List CallEvent)
    (s : RunState)
    (hd : deadlineElapsed dl s.now = false)
    (hb : pyStrip body ≠ "")
    (hs : env.enableKeywordShortcut = true)
    (hh : env.hasFinanceHint (pyStrip body) = false) :
    (candLoop env cfg dl ((cid, body) :: more) trace s
      = candLoop env cfg dl more trace (shortcutStep cfg cid s)) ∧
    outcomeFor (shortcutStep cfg cid s).conn.current cfg.analysis_tag cid
      = some ⟨cfg.analysis_tag, cid, cfg.model, .ok⟩ ∧
    (shortcutStep cfg cid s).out.analyzed = s.out.analyzed + 1 ∧
    (shortcutStep cfg cid s).out.analyzed_model_calls = s.out.analyzed_model_calls ∧
    (shortcutStep cfg cid s).conn.current.mentions = s.conn.current.mentions ∧
    (∀ (c : Conn) (re : Bool) (limit : ℕ) (b : String),
      outcomeFor c.current cfg.analysis_tag cid
          = some ⟨cfg.analysis_tag, cid, cfg.model, .ok⟩ →
      isCandidate c cfg.analysis_tag re cid = false ∧
      (cid, b) ∉ fetch_candidates c cfg.analysis_tag limit re) := by
  have hfacts := shortcutStep_facts cfg cid s
  refine ⟨?_, hfacts.1, hfacts.2.1, hfacts.2.2.1, hfacts.2.2.2, ?_⟩
  · exact candLoop_shortcut env cfg dl cid body more trace s hd hb (by simp [hs, hh])
  · intro c re limit b hok
    have hnc := not_candidate_of_ok c cfg.analysis_tag re cid cfg.model hok
    exact ⟨hnc, fetch_candidates_not_mem c cfg.analysis_tag limit re cid b hnc⟩

/-- Witness for C6 on a finance-free body under the shortcut environment. -/
theorem claim_C6_prefilter_witness :
    deadlineElapsed none stateW.now = false ∧
    pyStrip "hello there" ≠ "" ∧
    envShortcutW.enableKeywordShortcut = true ∧
    envShortcutW.hasFinanceHint (pyStrip "hello there") = false ∧
    ((candLoop envShortcutW cfgW none [("c1", "hello there")] [] stateW
      = candLoop envShortcutW cfgW none [] [] (shortcutStep cfgW "c1" stateW)) ∧
    outcomeFor (shortcutStep cfgW "c1" stateW).conn.current cfgW.analysis_tag "c1"
      = some ⟨cfgW.analysis_tag, "c1", cfgW.model, .ok⟩ ∧
    (shortcutStep cfgW "c1" stateW).out.analyzed = stateW.out.analyzed + 1 ∧
    (shortcutStep cfgW "c1" stateW).out.analyzed_model_calls
      = stateW.out.analyzed_model_calls ∧
    (shortcutStep cfgW "c1" stateW).conn.current.mentions
      = stateW.conn.current.mentions ∧
    (∀ (c : Conn) (re : Bool) (limit : ℕ) (b : String),
      outcomeFor c.current cfgW.analysis_tag "c1"
          = some ⟨cfgW.analysis_tag, "c1", cfgW.model, .ok⟩ →
      isCandidate c cfgW.analysis_tag re "c1" = false ∧
      ("c1", b) ∉ fetch_candidates c cfgW.analysis_tag limit re)) :=
  ⟨rfl, by decide, rfl, rfl,
    claim_C6_prefilter envShortcutW cfgW none "c1" "hello there" [] [] stateW
      rfl (by decide) rfl rfl⟩

/-- C10: a candidate whose body strips to the empty string is skipped with the run
state and the event trace completely unchanged — no classifier call, no Outcome
row, no counter; and an item with no Outcome row still satisfies the candidate
predicate, so it is selected again by later runs under the same tag. -/
theorem claim_C10_empty_body (env : Env) (cfg : AnalyzeCfg) (dl : Option ℚ)
    (cid body : String) (more : List (String × String)) (trace : List CallEvent)
    (s : RunState)
    (hd : deadlineElapsed dl s.now = false)
    (hb : pyStrip body = "") :
    (candLoop env cfg dl ((cid, body) :: more) trace s
      = candLoop env cfg dl more trace s) ∧
    (∀ (c : Conn) (re : Bool),
      outcomeFor c.current cfg.analysis_tag cid = none →
      isCandidate c cfg.analysis_tag re cid = true ∧
      ((cid, body) ∈ c.current.items →
        (cid, body) ∈ c.current.items.filter
          (fun it => isCandidate c cfg.analysis_tag re it.1))) := by
  refine ⟨candLoop_emptyBody env cfg dl cid body more trace s hd hb, ?_⟩
  intro c re hnone
  have hc := candidate_of_pending c cfg.analysis_tag re cid hnone
  refine ⟨hc, fun hmem => ?_⟩
  exact List.mem_filter.mpr ⟨hmem, hc⟩

/-- Witness for C10 on a whitespace-only body. -/
theorem claim_C10_empty_body_witness :
    deadlineElapsed none stateW.now = false ∧
    pyStrip "  " = "" ∧
    ((candLoop envW cfgW none [("c2", "  ")] [] stateW
      = candLoop envW cfgW none [] [] stateW) ∧
    (∀ (c : Conn) (re : Bool),
      outcomeFor c.current cfgW.analysis_tag "c2" = none →
      isCandidate c cfgW.analysis_tag re "c2" = true ∧
      (("c2", "  ") ∈ c.current.items →
        ("c2", "  ") ∈ c.current.items.filter
          (fun it => isCandidate c cfgW.analysis_tag re it.1)))) :=
  ⟨rfl, by decide,
    claim_C10_empty_body envW cfgW none "c2" "  " [] [] stateW rfl (by decide)⟩

/-- An environment whose prefilter passes only the text `"go"`. -/
def envC8 : Env := ⟨true, fun t => t == "go", false, fun _ => []⟩

/-- Ten pending items: nine prefilter-rejected bodies and one that reaches the
classifier. -/
def connC8 : Conn :=
  ⟨⟨[("c1", "hello"), ("c2", "hello"), ("c3", "hello"), ("c4", "hello"), ("c5", "hello"),
     ("c6", "hello"), ("c7", "hello"), ("c8", "hello"), ("c9", "hello"), ("c10", "go")],
    [], []⟩,
   ⟨[("c1", "hello"), ("c2", "hello"), ("c3", "hello"), ("c4", "hello"), ("c5", "hello"),
     ("c6", "hello"), ("c7", "hello"), ("c8", "hello"), ("c9", "hello"), ("c10", "go")],
    [], []⟩⟩

/-- C8 (counterexample): in a complete run over nine prefilter-skipped items
followed by one successful classifier call, the log shows a batch commit directly
after that first and only success (the first `commitEv`; the trailing
`commitEv, cleanupEv` pair is the end-of-run path) — yet only one success occurred
and 1 is not a multiple of 10, so "a commit after every 10 successes" is false:
the commit at `pipeline.py:318` follows the shared `analyzed` counter, which the
nine skips already raised to 9. -/
theorem claim_C8_counterexample :
    (resState (analyze envC8 cfgW connC8 0
        [CallEvent.success 0 []])).out.analyzed_model_calls = 1 ∧
    (resState (analyze envC8 cfgW connC8 0 [CallEvent.success 0 []])).log
      = [LogEntry.attemptEv 0 "c10" 0, LogEntry.commitEv, LogEntry.commitEv,
         LogEntry.cleanupEv] ∧
    ¬ ((1 : ℕ) % 10 = 0) := by
  decide

/-- C8 (amended): after every successful classifier call the returned mentions and
the `ok` Outcome for (item, tag) are both present in the current state, the
processed and model-call counters are incremented, and a commit is performed
exactly when the shared `analyzed` counter (successes plus prefilter skips)
becomes a multiple of 10 — not after every 10 successes. -/
theorem claim_C8_success_commit (env : Env) (cfg : AnalyzeCfg) (dl : Option ℚ)
    (cid : String) (attempt : ℕ) (dur : ℚ) (rows : List (String × Sentiment))
    (s : RunState) :
    attemptStep env cfg dl cid attempt (CallEvent.success dur rows) s
      = .advance (successStep cfg cid rows (elapse dur (callBegin cfg dl cid attempt s))) ∧
    (∀ t : RunState,
      outcomeFor (successStep cfg cid rows t).conn.current cfg.analysis_tag cid
        = some ⟨cfg.analysis_tag, cid, cfg.model, .ok⟩ ∧
      mentionsFor (successStep cfg cid rows t).conn.current cfg.analysis_tag cid
        = rows.map (fun p => (⟨cfg.analysis_tag, cid, p.1, p.2, cfg.model⟩ : MentionRow)) ∧
      (successStep cfg cid rows t).out.analyzed = t.out.analyzed + 1 ∧
      (successStep cfg cid rows t).out.analyzed_model_calls
        = t.out.analyzed_model_calls + 1 ∧
      ((t.out.analyzed + 1) % 10 = 0 →
        (successStep cfg cid rows t).log = t.log ++ [LogEntry.commitEv] ∧
        (successStep cfg cid rows t).conn.committed
          = (successStep cfg cid rows t).conn.current) ∧
      ((t.out.analyzed + 1) % 10 ≠ 0 →
        (successStep cfg cid rows t).log = t.log ∧
        (successStep cfg cid rows t).conn.committed = t.conn.committed)) := by
  refine ⟨attemptStep_success env cfg dl cid attempt dur rows s, fun t => ?_⟩
  have hp := successStep_persists cfg cid rows t
  have ho := successStep_out cfg cid rows t
  have hc := successStep_commit cfg cid rows t
  exact ⟨hp.1, hp.2, ho.1, ho.2.1, hc.1, hc.2⟩

/-- C9: the validity post-pass runs at most once per `analyze` invocation on every
stop path (full completion, timeout, quota, interrupt, fatal-auth propagation), and
`_cleanup_invalid_tickers` is a no-op returning 0 when validation is disabled or no
mentions exist for the tag. -/
theorem claim_C9_cleanup_once (env : Env) (cfg : AnalyzeCfg) (conn : Conn)
    (t0 : ℚ) (trace : List CallEvent) :
    countCleanup (resState (analyze env cfg conn t0 trace)).log ≤ 1 ∧
    (∀ (env' : Env) (c : Conn) (tag : String),
      env'.enableYfinanceValidation = false →
      cleanup_invalid_tickers env' c tag = (c, 0)) ∧
    (∀ (env' : Env) (c : Conn) (tag : String),
      c.current.mentions.filter (fun m => m.tag == tag) = [] →
      cleanup_invalid_tickers env' c tag = (c, 0)) := by
  refine ⟨?_, cleanup_disabled, cleanup_no_mentions⟩
  have h := cc_candLoop env cfg (analyzeDeadline cfg t0)
    (fetch_candidates conn cfg.analysis_tag cfg.limit cfg.retry_errors) trace
    ⟨conn, t0, t0, ⟨0, 0, 0, none⟩, []⟩
  simp only [analyze]
  rcases hr : candLoop env cfg (analyzeDeadline cfg t0)
      (fetch_candidates conn cfg.analysis_tag cfg.limit cfg.retry_errors) trace
      ⟨conn, t0, t0, ⟨0, 0, 0, none⟩, []⟩ with s' | ⟨e, s'⟩ | s'
  · rw [hr] at h
    simp only [runCC] at h
    show countCleanup s'.log ≤ 1
    rw [h]
    simp [countCleanup]
  · rw [hr] at h
    simp only [runCC] at h
    show countCleanup s'.log ≤ 1
    rw [h]
    simp [countCleanup]
  · rw [hr] at h
    simp only [runCC] at h
    show countCleanup s'.log ≤ 1
    rw [h]
    simp [countCleanup]

/-- Witness for C9: a concrete no-deadline run plus the disabled/no-mention no-ops. -/
theorem claim_C9_cleanup_once_witness :
    countCleanup (resState (analyze envW cfgW connW 0
      [CallEvent.success 1 []])).log ≤ 1 ∧
    cleanup_invalid_tickers envW connW "tag" = (connW, 0) :=
  ⟨(claim_C9_cleanup_once envW cfgW connW 0 [CallEvent.success 1 []]).1,
    (claim_C9_cleanup_once envW cfgW connW 0 [CallEvent.success 1 []]).2.1
      envW connW "tag" rfl⟩

/-- C1: with a deadline `d` set, every sleep performed by `sleep_with_deadline`
lasts at most `max 0 (d - now)`; in the whole run every recorded sleep starts
strictly before `d` and is clamped, and every classifier-call attempt starts no
later than `d`; and as soon as either loop detects the elapsed deadline it stops
through `timeoutExit`, which sets `stopped_reason = "timeout"`, commits the current
state and runs the validity post-pass. -/
theorem claim_C1_deadline_respect (env : Env) (cfg : AnalyzeCfg) (conn : Conn)
    (t0 : ℚ) (trace : List CallEvent) (d : ℚ)
    (hdl : analyzeDeadline cfg t0 = some d) :
    (∀ sec now : ℚ, sleep_with_deadline sec (some d) now ≤ max 0 (d - now)) ∧
    (∀ e ∈ (resState (analyze env cfg conn t0 trace)).log, timeOK d e) ∧
    (∀ s : RunState,
      (timeoutExit env cfg s).out.stopped_reason = some "timeout" ∧
      (timeoutExit env cfg s).conn.committed.outcomes = s.conn.current.outcomes ∧
      LogEntry.cleanupEv ∈ (timeoutExit env cfg s).log) ∧
    (∀ (cid body : String) (more : List (String × String)) (tr : List CallEvent)
        (s : RunState), deadlineElapsed (some d) s.now = true →
      candLoop env cfg (some d) ((cid, body) :: more) tr s
        = .done (timeoutExit env cfg s)) ∧
    (∀ (cid : String) (att : ℕ) (tr : List CallEvent) (s : RunState),
        deadlineElapsed (some d) s.now = true →
      attemptLoop env cfg (some d) cid att tr s = .halt (timeoutExit env cfg s) tr) := by
  refine ⟨fun sec now => sleep_with_deadline_le_max sec d now, ?_, ?_, ?_, ?_⟩
  · intro e he
    simp only [analyze] at he
    rw [hdl] at he
    have h0 : logOK d (⟨conn, t0, t0, ⟨0, 0, 0, none⟩, []⟩ : RunState) := by
      intro x hx
      cases hx
    exact logOK_candLoop env cfg d
      (fetch_candidates conn cfg.analysis_tag cfg.limit cfg.retry_errors) trace _ h0 e he
  · intro s
    have h := timeoutExit_facts env cfg s
    exact ⟨by rw [h.1], h.2.1, h.2.2⟩
  · intro cid body more tr s hs
    exact candLoop_elapsed env cfg (some d) cid body more tr s hs
  · intro cid att tr s hs
    exact attemptLoop_elapsed env cfg (some d) cid att tr s hs

/-- Witness for C1 on a 5-second deadline. -/
theorem claim_C1_deadline_respect_witness :
    analyzeDeadline cfgW5 0 = some ((0 : ℚ) + ((5 : ℕ) : ℚ)) ∧
    ((∀ sec now : ℚ, sleep_with_deadline sec (some ((0 : ℚ) + ((5 : ℕ) : ℚ))) now
        ≤ max 0 ((0 : ℚ) + ((5 : ℕ) : ℚ) - now)) ∧
    (∀ e ∈ (resState (analyze envW cfgW5 connW 0
        [CallEvent.success 10 []])).log, timeOK ((0 : ℚ) + ((5 : ℕ) : ℚ)) e) ∧
    (∀ s : RunState,
      (timeoutExit envW cfgW5 s).out.stopped_reason = some "timeout" ∧
      (timeoutExit envW cfgW5 s).conn.committed.outcomes = s.conn.current.outcomes ∧
      LogEntry.cleanupEv ∈ (timeoutExit envW cfgW5 s).log) ∧
    (∀ (cid body : String) (more : List (String × String)) (tr : List CallEvent)
        (s : RunState),
        deadlineElapsed (some ((0 : ℚ) + ((5 : ℕ) : ℚ))) s.now = true →
      candLoop envW cfgW5 (some ((0 : ℚ) + ((5 : ℕ) : ℚ))) ((cid, body) :: more) tr s
        = .done (timeoutExit envW cfgW5 s)) ∧
    (∀ (cid : String) (att : ℕ) (tr : List CallEvent) (s : RunState),
        deadlineElapsed (some ((0 : ℚ) + ((5 : ℕ) : ℚ))) s.now = true →
      attemptLoop envW cfgW5 (some ((0 : ℚ) + ((5 : ℕ) : ℚ))) cid att tr s
        = .halt (timeoutExit envW cfgW5 s) tr)) :=
  ⟨rfl, claim_C1_deadline_respect envW cfgW5 connW 0 [CallEvent.success 10 []]
    ((0 : ℚ) + ((5 : ℕ) : ℚ)) rfl⟩

end RedditMiner
